import Mathlib

/-!
Verification development for the Iji runtime reimplementation.

Shallow embedding of the parts of the code base the checked claims are about:
the dynamic value and coercion kernel and the binary operators of
src/gml/src/eval.rs, the archive byte decoder of src/gmk-file/src/lib.rs, the
instance member routing and alarm table of src/src/state/instance.rs, the room
dispatch and cleanup machinery of src/src/state/room.rs, the constant bindings
of src/src/state/global.rs, and the script evaluator of src/gml/src/eval.rs.

Machine integers are modelled as ℤ (with explicit wrapping where the source
wraps), f64 values as ℚ.  The f64 operations that have no exact rational
counterpart (Display formatting, FromStr parsing, and the trigonometric
polar conversions) are collected in a record of abstract operations `FOps`;
every theorem whose statement involves them quantifies over the record, so no
result depends on a particular choice.
-/

set_option maxHeartbeats 1000000
set_option linter.unusedVariables false

namespace Iji

/-- Truncation of a rational toward zero; the integral-part behavior of a Rust
`f64 as i32` cast before saturation. -/
def qtrunc (q : ℚ) : ℤ := if 0 ≤ q then ⌊q⌋ else -⌊-q⌋

/-- Saturation of an integer into the i32 range, the clamping behavior of a
Rust float-to-int `as` cast. -/
def satI32 (z : ℤ) : ℤ := max (-(2 ^ 31)) (min (2 ^ 31 - 1) z)

/-- Wrap an integer into the i32 two's-complement range (release-profile
overflow semantics of Rust `+ - *` on i32). -/
def wrap32 (z : ℤ) : ℤ := (z + 2 ^ 31) % 2 ^ 32 - 2 ^ 31

/-- Model of `gml::ast::Var` (src/gml/src/ast.rs): a plain identifier
(`Local`) or one qualified with `global.` (`Global`). -/
inductive GVar where
  | localV (name : String)
  | globalV (name : String)
deriving DecidableEq

/-- Model of `gml::eval::Value` (src/gml/src/eval.rs): the dynamic value
variant `Undefined | Bool | Int(i32) | Float(f64) | String`. -/
inductive Value where
  | undefined
  | bool (b : Bool)
  | int (n : ℤ)
  | float (x : ℚ)
  | str (s : String)
deriving DecidableEq

/-- Model of `gml::eval::Place` (src/gml/src/eval.rs): the resolved form of an
assignable expression. -/
inductive Place where
  | value (v : Value)
  | var (v : GVar)
  | property (id : ℤ) (name : String)
  | index (lhs : Place) (indices : List Value)
deriving DecidableEq

/-- Model of `gml::eval::Error` (src/gml/src/eval.rs).  `Custom` is omitted
(never constructed in the sources under verification). -/
inductive EvalError where
  | withPosition (e : EvalError) (line col : ℕ)
  | withScriptName (e : EvalError) (name : String)
  | exit
  | ret (v : Value)
  | assignToValue
  | undefinedFunction (name : String)
  | invalidOperands (l r : Value)
  | invalidBool (v : Value)
  | invalidInt (v : Value)
  | invalidFloat (v : Value)
  | invalidString (v : Value)
  | invalidObject (v : Value)
  | undefinedProperty (place : Place) (name : String)
  | invalidCount (v : Value)
  | invalidCondition (v : Value)
deriving DecidableEq

/-- Abstract versions of the f64 operations the kernel uses but ℚ cannot model
exactly: `fmt` stands for Rust's `f64` Display (shortest round-trip), `parseF`
for `str::parse::<f64>().unwrap_or_default()`, `parseI` for
`str::parse::<i32>().unwrap_or_default()`, and `c2p` / `p2c` for the
cartesian/polar conversions of src/src/state/instance.rs (which use sqrt,
atan2, sin and cos).  Theorems quantify over this record. -/
structure FOps where
  fmt : ℚ → String
  parseF : String → ℚ
  parseI : String → ℤ
  c2p : ℚ × ℚ → ℚ × ℚ
  p2c : ℚ × ℚ → ℚ × ℚ

/-- A concrete trivial instantiation of `FOps`, used only to state closed
counterexamples whose outcome does not depend on the abstracted operations. -/
def fops0 : FOps where
  fmt := fun _ => ""
  parseF := fun _ => 0
  parseI := fun _ => 0
  c2p := fun p => p
  p2c := fun p => p

/-- Model of `Value::to_bool`: the truthiness rule.  The float case of the
source is `!value.is_nan() && *value > 0.5`; NaN has no rational
representative, so the ℚ model keeps only the threshold test. -/
def Value.to_bool : Value → Bool
  | .undefined => false
  | .bool b => b
  | .int n => n != 0
  | .float x => x > 1 / 2
  | .str s => !s.isEmpty

/-- Model of `Value::to_int`: conversion to i32 (floats truncate toward zero
and saturate, strings parse-or-default). -/
def Value.to_int (fops : FOps) : Value → ℤ
  | .undefined => 0
  | .bool b => if b then 1 else 0
  | .int n => n
  | .float x => satI32 (qtrunc x)
  | .str s => fops.parseI s

/-- Model of `Value::to_float`: conversion to f64. -/
def Value.to_float (fops : FOps) : Value → ℚ
  | .undefined => 0
  | .bool b => if b then 1 else 0
  | .int n => (n : ℚ)
  | .float x => x
  | .str s => fops.parseF s

/-- Model of `Value::to_str`: conversion to string (ints print in decimal,
bools as `true`/`false`, floats through the abstracted f64 Display). -/
def Value.to_str (fops : FOps) : Value → String
  | .undefined => ""
  | .bool b => if b then "true" else "false"
  | .int n => toString n
  | .float x => fops.fmt x
  | .str s => s

/-- Whether a value is the `String` variant. -/
def Value.isStr : Value → Bool
  | .str _ => true
  | _ => false

/-- Model of `impl std::ops::Add for Value` (src/gml/src/eval.rs:236-247).
The match arms are in source order: Int+Int adds; anything plus a String on
the right concatenates through `to_str`; a String on the left with a
non-String right is `InvalidOperands`; otherwise both sides are promoted to
float. -/
def Value.add (fops : FOps) : Value → Value → Except EvalError Value
  | .int a, .int b => .ok (.int (wrap32 (a + b)))
  | lhs, .str b => .ok (.str (lhs.to_str fops ++ b))
  | .str a, rhs => .error (.invalidOperands (.str a) rhs)
  | lhs, rhs => .ok (.float (lhs.to_float fops + rhs.to_float fops))

/-- Model of `impl std::ops::Sub for Value` (src/gml/src/eval.rs:249-261):
Int-Int subtracts; a String operand on either side is `InvalidOperands`;
otherwise float subtraction. -/
def Value.sub (fops : FOps) : Value → Value → Except EvalError Value
  | .int a, .int b => .ok (.int (wrap32 (a - b)))
  | lhs, .str b => .error (.invalidOperands lhs (.str b))
  | .str a, rhs => .error (.invalidOperands (.str a) rhs)
  | lhs, rhs => .ok (.float (lhs.to_float fops - rhs.to_float fops))

/-- String repetition, the model of Rust `str::repeat`. -/
def strRepeat (s : String) : ℕ → String
  | 0 => ""
  | n + 1 => s ++ strRepeat s n

/-- Model of `impl std::ops::Mul for Value` (src/gml/src/eval.rs:263-277):
Int*Int multiplies; Int-or-Float times a String repeats the string
`to_int(...).try_into().unwrap_or_default()` times (negative counts become
0); a String on the left otherwise is `InvalidOperands`; otherwise float
multiplication. -/
def Value.mul (fops : FOps) : Value → Value → Except EvalError Value
  | .int a, .int b => .ok (.int (wrap32 (a * b)))
  | .int a, .str s => .ok (.str (strRepeat s a.toNat))
  | .float x, .str s => .ok (.str (strRepeat s (satI32 (qtrunc x)).toNat))
  | .str a, rhs => .error (.invalidOperands (.str a) rhs)
  | lhs, rhs => .ok (.float (lhs.to_float fops * rhs.to_float fops))

/-- Rust i32 division panics exactly when the divisor is zero or the division
overflows (`i32::MIN / -1`).  `none` models the panic. -/
def i32Div (a b : ℤ) : Option ℤ :=
  if b = 0 ∨ (a = -(2 ^ 31) ∧ b = -1) then none else some (Int.tdiv a b)

/-- Rust i32 remainder, with the panic conditions of `%`. -/
def i32Rem (a b : ℤ) : Option ℤ :=
  if b = 0 ∨ (a = -(2 ^ 31) ∧ b = -1) then none else some (Int.tmod a b)

/-- Model of `impl std::ops::Div for Value` (src/gml/src/eval.rs:279-291).
The Int/Int arm performs Rust integer division, whose divide-by-zero panic is
modelled by `none`; a String operand on either side is `InvalidOperands`;
otherwise float division (ℚ division by zero yields 0 where f64 would give an
infinity; no claim exercises that case). -/
def Value.div (fops : FOps) : Value → Value → Option (Except EvalError Value)
  | .int a, .int b => (i32Div a b).map fun q => .ok (.int q)
  | .str a, rhs => some (.error (.invalidOperands (.str a) rhs))
  | lhs, .str b => some (.error (.invalidOperands lhs (.str b)))
  | lhs, rhs => some (.ok (.float (lhs.to_float fops / rhs.to_float fops)))

/-- Rational counterpart of the f64 `%` operator (truncated remainder).  The
Rust operator yields NaN for a zero divisor, which ℚ cannot represent; no
claim exercises that case. -/
def qfmod (a b : ℚ) : ℚ := a - b * (qtrunc (a / b) : ℚ)

/-- Model of `impl std::ops::Rem for Value` (src/gml/src/eval.rs:293-305),
with the same panic modelling as division. -/
def Value.rem (fops : FOps) : Value → Value → Option (Except EvalError Value)
  | .int a, .int b => (i32Rem a b).map fun q => .ok (.int q)
  | .str a, rhs => some (.error (.invalidOperands (.str a) rhs))
  | lhs, .str b => some (.error (.invalidOperands lhs (.str b)))
  | lhs, rhs => some (.ok (.float (qfmod (lhs.to_float fops) (rhs.to_float fops))))

/-- Model of `impl PartialEq for Value` (src/gml/src/eval.rs:74-85).  The
float arm compares against `to_float` of the right side; every other mixed
pair is unequal. -/
def Value.veq (fops : FOps) : Value → Value → Bool
  | .undefined, .undefined => true
  | .str a, .str b => a = b
  | .bool a, .bool b => a = b
  | .int a, .int b => a = b
  | .float a, rhs => a = rhs.to_float fops
  | _, _ => false

/-- Model of `impl PartialOrd for Value` (src/gml/src/eval.rs:87-98):
`partial_cmp`, `none` meaning unordered. -/
def Value.vcmp (fops : FOps) : Value → Value → Option Ordering
  | .undefined, .undefined => some .eq
  | .str a, .str b => some (compare a b)
  | .bool a, .bool b => some (compare a b)
  | .int a, .int b => some (compare a b)
  | .float a, rhs => some (compare a (rhs.to_float fops))
  | _, _ => none

/-- Rust `<=` derived from `partial_cmp`: true on `Less` or `Equal`. -/
def Value.vle (fops : FOps) (l r : Value) : Bool :=
  match l.vcmp fops r with
  | some .lt => true
  | some .eq => true
  | _ => false

/-- Rust `<` derived from `partial_cmp`. -/
def Value.vlt (fops : FOps) (l r : Value) : Bool :=
  match l.vcmp fops r with
  | some .lt => true
  | _ => false

/-- Rust `>=` derived from `partial_cmp`. -/
def Value.vge (fops : FOps) (l r : Value) : Bool :=
  match l.vcmp fops r with
  | some .gt => true
  | some .eq => true
  | _ => false

/-- Rust `>` derived from `partial_cmp`. -/
def Value.vgt (fops : FOps) (l r : Value) : Bool :=
  match l.vcmp fops r with
  | some .gt => true
  | _ => false

/-- Model of `gml::ast::BinaryOp` (src/gml/src/ast.rs). -/
inductive BinaryOp where
  | and | or | xor
  | bitAnd | bitOr | bitXor
  | le | lt | ge | gt | ne | eq
  | add | sub | mul | div | idiv | imod
deriving DecidableEq

/-- Model of the `ast::Expr::Binary` arm of `Context::eval_place`
(src/gml/src/eval.rs:740-763): how each binary operator combines two already
evaluated operands.  `none` models a Rust panic (integer division or
remainder by zero in the `Div`, `IDiv` and `IMod` arms). -/
def evalBinOp (fops : FOps) (op : BinaryOp) (lhs rhs : Value) :
    Option (Except EvalError Value) :=
  match op with
  | .and => some (.ok (.bool (lhs.to_bool && rhs.to_bool)))
  | .or => some (.ok (.bool (lhs.to_bool || rhs.to_bool)))
  | .xor => some (.ok (.bool (lhs.to_bool != rhs.to_bool)))
  | .bitAnd => some (.ok (.int (Int.land (lhs.to_int fops) (rhs.to_int fops))))
  | .bitOr => some (.ok (.int (Int.lor (lhs.to_int fops) (rhs.to_int fops))))
  | .bitXor => some (.ok (.int (Int.xor (lhs.to_int fops) (rhs.to_int fops))))
  | .le => some (.ok (.bool (Value.vle fops lhs rhs)))
  | .lt => some (.ok (.bool (Value.vlt fops lhs rhs)))
  | .ge => some (.ok (.bool (Value.vge fops lhs rhs)))
  | .gt => some (.ok (.bool (Value.vgt fops lhs rhs)))
  | .ne => some (.ok (.bool (!Value.veq fops lhs rhs)))
  | .eq => some (.ok (.bool (Value.veq fops lhs rhs)))
  | .add => some (lhs.add fops rhs)
  | .sub => some (lhs.sub fops rhs)
  | .mul => some (lhs.mul fops rhs)
  | .div => lhs.div fops rhs
  | .idiv => (i32Div (lhs.to_int fops) (rhs.to_int fops)).map fun q => .ok (.int q)
  | .imod => lhs.rem fops rhs

/-! ## Archive decoder (src/gmk-file/src/lib.rs) -/

/-- One swap position of the table generator: `j = 1 + (i*a + b) % 254` with
`a = 6 + seed % 250` and `b = seed / 250`
(src/gmk-file/src/lib.rs:94-101).  The u32 arithmetic cannot overflow here
(`i ≤ 10000`, `a ≤ 255`, `b < 2^32 / 250`), so plain ℕ arithmetic is exact. -/
def swapIdx (seed i : ℕ) : ℕ := 1 + (i * (6 + seed % 250) + seed / 250) % 254

/-- Array `swap` of positions `j` and `k` viewed as a table (a function from
index to value): the entry at `j` becomes the old entry at `k` and vice
versa. -/
def tableSwap (j k : ℕ) (f : ℕ → ℕ) : ℕ → ℕ :=
  fun x => if x = j then f k else if x = k then f j else f x

/-- The transposition of `j` and `k` on ℕ (proof helper: `tableSwap j k f`
is `f ∘ natSwap j k`). -/
def natSwap (j k : ℕ) (x : ℕ) : ℕ := if x = j then k else if x = k then j else x

/-- One iteration of the permutation loop: swap the entries at positions
`swapIdx seed i` and `swapIdx seed i + 1`. -/
def encodeStep (seed : ℕ) (f : ℕ → ℕ) (i : ℕ) : ℕ → ℕ :=
  tableSwap (swapIdx seed i) (swapIdx seed i + 1) f

/-- Model of the permutation loop of `generate_decode_table`
(src/gmk-file/src/lib.rs:96-103): start from the identity table and, for `i`
from 1 to 10000, swap positions `swapIdx seed i` and `swapIdx seed i + 1`. -/
def encodeTable (seed : ℕ) : ℕ → ℕ :=
  (List.range' 1 10000).foldl (encodeStep seed) id

/-- One iteration of the inversion loop: set the entry at position
`encodeTable seed i` to `i`. -/
def decodeStep (seed : ℕ) (t : ℕ → ℕ) (i : ℕ) : ℕ → ℕ :=
  Function.update t (encodeTable seed i) i

/-- Model of the inversion loop of `generate_decode_table`
(src/gmk-file/src/lib.rs:105-109): a zero-initialised table whose entry at
`encodeTable seed i` is set to `i`, for `i` from 1 to 255. -/
def decodeTable (seed : ℕ) : ℕ → ℕ :=
  (List.range' 1 255).foldl (decodeStep seed) (fun _ => 0)

/-- Model of the byte-decode loop of `gmk_file::parse`
(src/gmk-file/src/lib.rs:33-35): walking the buffer from position `pos`,
a byte at a position `≥ bound` is replaced by
`table[byte].wrapping_sub(pos % 256)` (u8 wrapping subtraction, written here
as addition of 256 before the subtraction and reduction mod 256); a byte at a
position `< bound` is kept.  The source loop mutates positions
`start + 1 .. len` in place; since each position is rewritten independently,
the positional map is the same function. -/
def decodeFrom (table : ℕ → ℕ) (bound : ℕ) : ℕ → List ℕ → List ℕ
  | _, [] => []
  | pos, c :: rest =>
    (if bound ≤ pos then (table c + 256 - pos % 256) % 256 else c)
      :: decodeFrom table bound (pos + 1) rest

/-- The decode step of `gmk_file::parse` (src/gmk-file/src/lib.rs:22-42):
with `start` the offset just past the file header (whose last field is the
seed), every byte from position `start + 1` on is decoded with the seed's
table; bytes at positions `≤ start` are untouched. -/
def parseDecode (seed start : ℕ) (data : List ℕ) : List ℕ :=
  decodeFrom (decodeTable seed) (start + 1) 0 data

/-! ## Alarm table (src/src/state/instance.rs) -/

/-- Model of `InstanceAlarm::set` (src/src/state/instance.rs:220-228) on the
alarm table (a `HashMap<i32, i32>`, modelled as an association list with
unique keys): non-positive steps remove the entry, positive steps insert or
overwrite it. -/
def alarmSet (a : List (ℤ × ℤ)) (index steps : ℤ) : List (ℤ × ℤ) :=
  if steps ≤ 0 then a.filter fun p => p.1 != index
  else (a.filter fun p => p.1 != index) ++ [(index, steps)]

/-- Model of the alarm half of `Instance::step`
(src/src/state/instance.rs:37-50): every entry is decremented; entries still
positive are retained, the others are removed and their indices collected as
the `Event::Alarm` dispatches to fire.  The underlying map's iteration order
is unspecified; the model keeps list order, which no claim depends on. -/
def alarmStep (a : List (ℤ × ℤ)) : List (ℤ × ℤ) × List ℤ :=
  ((a.map fun p => (p.1, p.2 - 1)).filter fun p => decide (0 < p.2),
   ((a.map fun p => (p.1, p.2 - 1)).filter fun p => !decide (0 < p.2)).map
     fun p => p.1)

/-- n-fold iteration of the alarm decrement: the alarm table after n
per-instance steps with no intervening `set_alarm`. -/
def alarmIter (a : List (ℤ × ℤ)) : ℕ → List (ℤ × ℤ)
  | 0 => a
  | n + 1 => (alarmStep (alarmIter a n)).1

/-- The list of alarm indices fired on the k-th step (k ≥ 1) after starting
from table `a`. -/
def firedOnStep (a : List (ℤ × ℤ)) (k : ℕ) : List ℤ :=
  (alarmStep (alarmIter a (k - 1))).2

/-! ## Instance state and member routing (src/src/state/instance.rs) -/

/-- Model of `InstanceVelocity` (src/src/state/instance.rs:239-243): the one
underlying velocity, stored either as cartesian components or as polar
length/direction. -/
inductive Velocity where
  | cartesian (x y : ℚ)
  | polar (length direction : ℚ)
deriving DecidableEq

/-- Model of `InstanceState` (src/src/state/instance.rs:201-213).  The cached
sprite handle is reduced to its presence, and the blend color to its four
channels. -/
structure InstState where
  posX : ℚ
  posY : ℚ
  depth : ℤ
  velocity : Velocity
  visible : Bool
  spriteIndex : ℤ
  spriteAssetCached : Bool
  imageSpeed : ℚ
  imageIndex : ℚ
  blendR : ℚ
  blendG : ℚ
  blendB : ℚ
  blendA : ℚ
deriving DecidableEq

/-- The `InstanceVelocity::cartesian` view
(src/src/state/instance.rs:274-279): a polar velocity converts through the
abstracted trigonometric conversion. -/
def Velocity.cart (fops : FOps) : Velocity → ℚ × ℚ
  | .cartesian x y => (x, y)
  | .polar l d => fops.p2c (l, d)

/-- The `InstanceVelocity::polar` view (src/src/state/instance.rs:294-299). -/
def Velocity.pol (fops : FOps) : Velocity → ℚ × ℚ
  | .cartesian x y => fops.c2p (x, y)
  | .polar l d => (l, d)

/-- Association-list lookup, the model of `HashMap<String, _>::get`. -/
def alookup {α : Type} (l : List (String × α)) (name : String) : Option α :=
  (l.find? fun p => p.1 == name).map fun p => p.2

/-- Association-list insert-or-overwrite, the model of
`HashMap<String, _>::insert` (key order is irrelevant to lookups). -/
def ainsert {α : Type} (l : List (String × α)) (name : String) (v : α) :
    List (String × α) :=
  (l.filter fun p => p.1 != name) ++ [(name, v)]

/-- Byte `k` of the little-endian u32 representation of an i32. -/
def u32ByteLE (z : ℤ) (k : ℕ) : ℕ := ((z.emod (2 ^ 32)).toNat / 256 ^ k) % 256

/-- Model of `impl Object for Instance`, `member`
(src/src/state/instance.rs:127-148): reads of the names handled by the match
return structured `InstanceState` fields (`alarm` returns the id of the alarm
object); every other name — including `speed`, `direction`, `hspeed`,
`vspeed` and `image_blend` — falls through to the free-form per-instance
variable map, `none` meaning the name is absent there too. -/
def instMember (st : InstState) (alarmId : ℤ)
    (vars : List (String × Value)) (name : String) : Option Value :=
  match name with
  | "visible" => some (.bool st.visible)
  | "depth" => some (.int st.depth)
  | "x" => some (.float st.posX)
  | "y" => some (.float st.posY)
  | "alarm" => some (.int alarmId)
  | "sprite_index" => some (.int st.spriteIndex)
  | "image_speed" => some (.float st.imageSpeed)
  | "image_index" => some (.float st.imageIndex)
  | "image_single" =>
      some (.float (if st.imageSpeed > 0 then st.imageIndex else -1))
  | "image_alpha" => some (.float st.blendA)
  | _ => alookup vars name

/-- Model of `impl Object for Instance`, `set_member`
(src/src/state/instance.rs:150-198): writes of the fifteen structured names
update `InstanceState` — `speed`/`direction` switch the velocity
representation to polar, `hspeed`/`vspeed` to cartesian, `alarm` is rejected
with `AssignToValue`, `sprite_index` also resets `image_index` and drops the
cached sprite handle, `image_blend` unpacks the low three little-endian bytes
of the int value — and any other name goes to the free-form variable map. -/
def instSetMember (fops : FOps) (st : InstState) (vars : List (String × Value))
    (name : String) (v : Value) :
    Except EvalError (InstState × List (String × Value)) :=
  match name with
  | "visible" => .ok ({st with visible := v.to_bool}, vars)
  | "depth" => .ok ({st with depth := v.to_int fops}, vars)
  | "x" => .ok ({st with posX := v.to_float fops}, vars)
  | "y" => .ok ({st with posY := v.to_float fops}, vars)
  | "speed" =>
      let p := st.velocity.pol fops
      .ok ({st with velocity := .polar (v.to_float fops) p.2}, vars)
  | "direction" =>
      let p := st.velocity.pol fops
      .ok ({st with velocity := .polar p.1 (v.to_float fops)}, vars)
  | "hspeed" =>
      let cr := st.velocity.cart fops
      .ok ({st with velocity := .cartesian (v.to_float fops) cr.2}, vars)
  | "vspeed" =>
      let cr := st.velocity.cart fops
      .ok ({st with velocity := .cartesian cr.1 (v.to_float fops)}, vars)
  | "alarm" => .error .assignToValue
  | "sprite_index" =>
      .ok ({st with spriteIndex := v.to_int fops, imageIndex := 0,
                    spriteAssetCached := false}, vars)
  | "image_speed" => .ok ({st with imageSpeed := v.to_float fops}, vars)
  | "image_index" => .ok ({st with imageIndex := v.to_float fops}, vars)
  | "image_single" =>
      let x := v.to_float fops
      if x < 0 then .ok ({st with imageSpeed := 1}, vars)
      else .ok ({st with imageSpeed := 0, imageIndex := x}, vars)
  | "image_blend" =>
      let color := v.to_int fops
      .ok ({st with blendR := (u32ByteLE color 0 : ℚ) / 255,
                    blendG := (u32ByteLE color 1 : ℚ) / 255,
                    blendB := (u32ByteLE color 2 : ℚ) / 255}, vars)
  | "image_alpha" => .ok ({st with blendA := v.to_float fops}, vars)
  | _ => .ok (st, ainsert vars name v)

/-- The fifteen member names the specification requires to be routed to
structured instance state. -/
def structuredNames : List String :=
  ["x", "y", "depth", "visible", "speed", "direction", "hspeed", "vspeed",
   "alarm", "sprite_index", "image_speed", "image_index", "image_single",
   "image_blend", "image_alpha"]

/-! ## Constant bindings (src/src/state/global.rs) -/

/-- Model of `define_consts` (src/src/state/global.rs:324-412): the exact
sequence of `vars.insert` calls — the vk key constants (with the codes of
`gmk_file::Key`, src/gmk-file/src/lib.rs:508-606), then the color constants,
then one `ObjectId` constant per named resource of each chunk (objects,
rooms, scripts, backgrounds, sprites, sounds, in that order), given here as
an already flattened name/index list. -/
def defineConsts (resourceNames : List (String × ℕ)) : List (String × Value) :=
  let pairs : List (String × Value) :=
    [("vk_nokey", .int 0), ("vk_anykey", .int 1),
     ("vk_backspace", .int 8), ("vk_tab", .int 9),
     ("vk_enter", .int 13),
     ("vk_shift", .int 16), ("vk_control", .int 17), ("vk_alt", .int 18),
     ("vk_escape", .int 27),
     ("vk_space", .int 32), ("vk_pageup", .int 33), ("vk_pagedown", .int 34),
     ("vk_end", .int 35), ("vk_home", .int 36), ("vk_left", .int 37),
     ("vk_up", .int 38), ("vk_right", .int 39), ("vk_down", .int 40),
     ("vk_insert", .int 45), ("vk_delete", .int 46),
     ("vk_numpad0", .int 96), ("vk_numpad1", .int 97),
     ("vk_numpad2", .int 98), ("vk_numpad3", .int 99),
     ("vk_numpad4", .int 100), ("vk_numpad5", .int 101),
     ("vk_numpad6", .int 102), ("vk_numpad7", .int 103),
     ("vk_numpad8", .int 104), ("vk_numpad9", .int 105),
     ("vk_multiply", .int 106), ("vk_add", .int 107),
     ("vk_subtract", .int 108), ("vk_decimal", .int 109),
     ("vk_divide", .int 110),
     ("c_aqua", .int 16776960), ("c_black", .int 0),
     ("c_blue", .int 16711680), ("c_dkgray", .int 4210752),
     ("c_fuchsia", .int 16711935), ("c_gray", .int 8421504),
     ("c_green", .int 32768), ("c_lime", .int 65280),
     ("c_ltgray", .int 12632256), ("c_maroon", .int 128),
     ("c_navy", .int 8388608), ("c_olive", .int 32896),
     ("c_orange", .int 4235519), ("c_purple", .int 8388736),
     ("c_red", .int 255), ("c_silver", .int 12632256),
     ("c_teal", .int 8421376), ("c_white", .int 16777215),
     ("c_yellow", .int 65535)]
  (resourceNames.map fun p => (p.1, Value.int p.2)).foldl
    (fun ns p => ainsert ns p.1 p.2)
    (pairs.foldl (fun ns p => ainsert ns p.1 p.2) [])

/-! ## Room event dispatch and lifecycle (src/src/state/room.rs)

The room model tracks the state `Room::dispatch`, `Room::cleanup`,
`Room::step` and `Instance::dispatch` mutate: the live-instance map, the two
deferred sets (`added_instances`, `destroyed_instances`), the instance-id
allocator, each live instance's alarm table, and a trace that records, in
order, every handler execution `(instance id, event)`.  Handler bodies are
given by the actions of the object definitions; the action vocabulary is the
subset of `Action` (src/src/state/global/objects.rs) and of the host calls a
handler script can make (src/src/scripts.rs) that mutate this state. -/

/-- The runtime `Event` variants these claims reach
(src/src/state/global.rs via `objects::Event`); key and collision events
behave like any other event id for dispatch purposes and are omitted. -/
inductive REvent where
  | create | stepBegin | stepNormal | stepEnd | draw | destroy
  | alarm (i : ℤ)
deriving DecidableEq

/-- A handler action of the room model:
`killObject` is `Action::KillObject` (and `instance_destroy()` on self),
`destroyId` the host `instance_destroy(id)`,
`createInst` the host `instance_create(x, y, object_index)` (the position is
outside the model), and `setAlarm` is `Action::SetAlarm` / `alarm[i] = n`. -/
inductive RAction where
  | killObject
  | destroyId (id : ℕ)
  | createInst (objIndex : ℕ)
  | setAlarm (index steps : ℤ)
deriving DecidableEq

/-- An object definition as dispatch sees it: its event table and its
optional parent (`ObjectAsset.events` / `parent_index`). -/
structure RObjDef where
  events : REvent → Option (List RAction)
  parent : Option ℕ

/-- A live (or deferred-added) instance of the room model: id, object type,
and alarm table. -/
structure LiveInst where
  id : ℕ
  objIndex : ℕ
  alarms : List (ℤ × ℤ)
deriving DecidableEq

/-- The mutable room state (src/src/state/room.rs:17-37) these claims touch.
`live` lists the live map's entries in its iteration order; the underlying
container is a `HashMap<u32, Rc<Instance>>`, whose iteration order is
unspecified, so any permutation of the entries is a legal state of the
model.  `added` models `added_instances` (also a HashMap; the model keeps
creation order, its drain order being likewise unspecified), `destroyed` the
ordered `destroyed_instances` vector, `nextId` the `last_instance_id`
allocator of `Global`, and `trace` the record of handler executions. -/
structure RoomState where
  live : List LiveInst
  added : List LiveInst
  destroyed : List ℕ
  nextId : ℕ
  trace : List (ℕ × REvent)

/-- The parent-chain walk of `Instance::dispatch`
(src/src/state/instance.rs:56-69): find the action list of the nearest
ancestor defining the event.  `chain` bounds the walk (the source would loop
forever on a parent cycle); 256 exceeds any real chain. -/
def findEvents (defs : ℕ → Option RObjDef) :
    ℕ → ℕ → REvent → Option (List RAction)
  | 0, _, _ => none
  | chain + 1, objIndex, e =>
    match defs objIndex with
    | none => none
    | some d =>
      match d.events e with
      | some acts => some acts
      | none =>
        match d.parent with
        | some p => findEvents defs chain p e
        | none => none

/-- Update the alarm table of the instance with the given id, wherever it
lives (the `Rc<InstanceAlarm>` is shared, so the update reaches the entry in
the live map or in the deferred-added set alike). -/
def roomSetAlarm (s : RoomState) (selfId : ℕ) (index steps : ℤ) : RoomState :=
  {s with
    live := s.live.map fun li =>
      if li.id = selfId then {li with alarms := alarmSet li.alarms index steps}
      else li,
    added := s.added.map fun li =>
      if li.id = selfId then {li with alarms := alarmSet li.alarms index steps}
      else li}

/-- One pending dispatch job: dispatch an event on an instance, or run the
remainder of a handler's action list on behalf of an instance. -/
inductive DJob where
  | dispatch (instId objIndex : ℕ) (e : REvent)
  | actions (selfId : ℕ) (acts : List RAction)

/-- The worker behind `Instance::dispatch`
(src/src/state/instance.rs:53-102): a `dispatch` job walks the parent chain
for a handler and, if one exists, records the execution `(instId, e)` in the
trace and runs its actions in order; an `actions` job executes the handler
loop — `KillObject` and `instance_destroy` push onto the deferred
`destroyed` list, `instance_create` allocates an id, inserts the new
instance into the deferred `added` set and dispatches `Create` on it at once
(src/src/scripts.rs:268-282), and `SetAlarm` goes to the instance's alarm
table.  The single fuel-structural worker (each step consumes one unit)
keeps closed scenarios computable; the source recurses unboundedly. -/
def dispatchRun (defs : ℕ → Option RObjDef) :
    ℕ → DJob → RoomState → RoomState
  | 0, _, s => s
  | fuel + 1, .dispatch instId objIndex e, s =>
    (match findEvents defs 256 objIndex e with
     | none => s
     | some acts =>
         dispatchRun defs fuel (.actions instId acts)
           {s with trace := s.trace ++ [(instId, e)]})
  | _ + 1, .actions _ [], s => s
  | fuel + 1, .actions selfId (a :: rest), s =>
    match a with
    | .killObject =>
        dispatchRun defs fuel (.actions selfId rest)
          {s with destroyed := s.destroyed ++ [selfId]}
    | .destroyId id =>
        dispatchRun defs fuel (.actions selfId rest)
          {s with destroyed := s.destroyed ++ [id]}
    | .setAlarm i n =>
        dispatchRun defs fuel (.actions selfId rest)
          (roomSetAlarm s selfId i n)
    | .createInst objIndex =>
        let id := s.nextId
        let s2 := {s with nextId := id + 1,
                          added := s.added ++ [⟨id, objIndex, []⟩]}
        dispatchRun defs fuel (.actions selfId rest)
          (dispatchRun defs fuel (.dispatch id objIndex .create) s2)

/-- Model of `Instance::dispatch` (src/src/state/instance.rs:53-102). -/
def instDispatch (defs : ℕ → Option RObjDef) (fuel : ℕ) (instId objIndex : ℕ)
    (e : REvent) (s : RoomState) : RoomState :=
  dispatchRun defs fuel (.dispatch instId objIndex e) s

/-- Model of `Room::cleanup` (src/src/state/room.rs:194-215): drain the
destroyed list; for each id still present in the live map, remove it and
dispatch `Destroy` on the removed instance; finally drain `added_instances`
into the live map.  (The source holds the drained vector's borrow during the
loop, so a `destroy_instance` issued from a Destroy handler would panic
there; the model leaves such pushes queued instead — no claim reaches that
case.) -/
def roomCleanup (defs : ℕ → Option RObjDef) (fuel : ℕ) (s : RoomState) :
    RoomState :=
  let drained := s.destroyed
  let s1 := {s with destroyed := []}
  let s2 := drained.foldl
    (fun s id =>
      match s.live.find? (fun li => li.id == id) with
      | some li =>
          instDispatch defs fuel li.id li.objIndex .destroy
            {s with live := s.live.filter fun li2 => li2.id != id}
      | none => s)
    s1
  {s2 with live := s2.live ++ s2.added, added := []}

/-- Model of `Room::dispatch` (src/src/state/room.rs:187-192): dispatch the
event to every live instance in the map's iteration order, then immediately
run `cleanup`.  The loop iterates the map as it was when the pass began
(the borrow is held for the loop; handlers only mutate the deferred sets or
alarm interiors, never the live map itself). -/
def roomDispatch (defs : ℕ → Option RObjDef) (fuel : ℕ) (e : REvent)
    (s : RoomState) : RoomState :=
  roomCleanup defs fuel
    (s.live.foldl (fun s2 li => instDispatch defs fuel li.id li.objIndex e s2)
      s)

/-- Model of the non-alarm-free part of `Instance::step`
(src/src/state/instance.rs:29-51) restricted to the state this model tracks:
decrement the instance's alarm table (looked up by id in the current state,
since the alarm cell is interior-mutable) and dispatch `Alarm(i)` on the
instance for every expired entry.  The position/image updates of the source
touch fields outside this model. -/
def instStep (defs : ℕ → Option RObjDef) (fuel : ℕ) (instId objIndex : ℕ)
    (s : RoomState) : RoomState :=
  match s.live.find? (fun li => li.id == instId) with
  | none => s
  | some li =>
    let st := alarmStep li.alarms
    let s2 := {s with live := s.live.map fun li2 =>
      if li2.id = instId then {li2 with alarms := st.1} else li2}
    st.2.foldl (fun s3 i => instDispatch defs fuel instId objIndex (.alarm i) s3)
      s2

/-- Model of one sub-tick of `Room::step` (src/src/state/room.rs:125-137):
dispatch `StepBegin` (with its trailing cleanup), run the per-instance step
loop over the live map, then dispatch `StepNormal` and `StepEnd` (each with
its trailing cleanup). -/
def subTick (defs : ℕ → Option RObjDef) (fuel : ℕ) (s : RoomState) :
    RoomState :=
  let s1 := roomDispatch defs fuel .stepBegin s
  let s2 := s1.live.foldl
    (fun s2 li => instStep defs fuel li.id li.objIndex s2) s1
  let s3 := roomDispatch defs fuel .stepNormal s2
  roomDispatch defs fuel .stepEnd s3

/-- The ids, in order, of the handler executions a single dispatch pass adds
for event `e` (the in-pass portion of the trace, before the trailing
cleanup's Destroy dispatches). -/
def passCallOrder (defs : ℕ → Option RObjDef) (fuel : ℕ) (e : REvent)
    (s : RoomState) : List ℕ :=
  (((s.live.foldl (fun s2 li => instDispatch defs fuel li.id li.objIndex e s2)
      s).trace.drop s.trace.length).filter fun p => p.2 == e).map fun p => p.1

/-! ## Script abstract syntax (src/gml/src/ast.rs) -/

/-- Model of `gml::ast::UnaryOp`. -/
inductive UnaryOp where
  | not | pos | neg | bitNot | preIncr | preDecr | postIncr | postDecr
deriving DecidableEq

/-- Model of `gml::ast::AssignOp`. -/
inductive AssignOp where
  | assign | addAssign | subAssign | mulAssign | divAssign
deriving DecidableEq

/-- Model of `gml::ast::Expr` (src/gml/src/ast.rs:244-272); source positions
are the `(line, col)` pair carried by calls. -/
inductive Expr where
  | var (v : GVar)
  | int (n : ℤ)
  | float (x : ℚ)
  | str (s : String)
  | unary (op : UnaryOp) (e : Expr)
  | binary (lhs : Expr) (op : BinaryOp) (rhs : Expr)
  | member (lhs : Expr) (name : String)
  | index (lhs : Expr) (indices : List Expr)
  | call (line col : ℕ) (name : String) (args : List Expr)

/-- Model of `gml::ast::Assign`. -/
structure Assign where
  lhs : Expr
  op : AssignOp
  rhs : Expr

/-- Model of `gml::ast::Stmt` (src/gml/src/ast.rs:50-91). -/
inductive Stmt where
  | varDecl (name : String)
  | assignS (line col : ℕ) (a : Assign)
  | exprS (line col : ℕ) (e : Expr)
  | ifS (cond : Expr) (body : Stmt) (alt : Option Stmt)
  | repeatS (count : Expr) (body : Stmt)
  | whileS (cond : Expr) (body : Stmt)
  | forS (init : Assign) (cond : Expr) (update : Assign) (body : Stmt)
  | withS (obj : Expr) (body : Stmt)
  | ret (e : Expr)
  | exitS
  | block (stmts : List Stmt)
  | empty

/-- Model of `gml::ast::Script`. -/
structure Script where
  name : String
  stmts : List Stmt

/-! ## Script evaluator (src/gml/src/eval.rs)

The evaluator is embedded over the concrete `Global` implementation of
src/src/state/global.rs, reduced to the state script execution touches in
these claims: the consts and global-vars namespaces, the script table, and
the id-keyed object store holding the script-created objects (`Array`,
`Namespace`), alarm objects, and instances.  The host builtin library
(src/src/scripts.rs) is outside the model: a call that is neither a user
script nor resolvable falls through to the `UndefinedFunction` error, which
is also what the host returns for unknown names.  All mutation is by state
passing; recursion is bounded by a fuel parameter, and `stuck` marks both
fuel exhaustion and a Rust panic (the `todo!()` increment operators, or
integer division by zero). -/

/-- The object kinds reachable through `Global::instance`: script arrays and
namespaces (src/gml/src/eval.rs:375-433), per-instance alarm objects
(src/src/state/instance.rs:230-237), and room object instances
(src/src/state/instance.rs:126-198).  The `ObjectType` objects that shadow
instance ids with object-type indices in `Global::instance` are not
modelled. -/
inductive ObjData where
  | arr (items : List Value)
  | names (vars : List (String × Value))
  | alarmObj (table : List (ℤ × ℤ))
  | inst (st : InstState) (alarmId : ℤ) (vars : List (String × Value))
deriving DecidableEq

/-- `Object::member` of each kind (`Array` and `InstanceAlarm` keep the
trait default, which reports no member). -/
def objMember (fops : FOps) : ObjData → String → Option Value
  | .arr _, _ => none
  | .names vars, name => alookup vars name
  | .alarmObj _, _ => none
  | .inst st aid vars, name => instMember st aid vars name

/-- `Object::set_member` of each kind (the trait default is a silent
no-op). -/
def objSetMember (fops : FOps) : ObjData → String → Value →
    Except EvalError ObjData
  | .arr items, _, _ => .ok (.arr items)
  | .names vars, name, v => .ok (.names (ainsert vars name v))
  | .alarmObj t, _, _ => .ok (.alarmObj t)
  | .inst st aid vars, name, v =>
      (instSetMember fops st vars name v).map fun p => .inst p.1 aid p.2

/-- `Array::index` (src/gml/src/eval.rs:413-419): the first index (or
Undefined when absent) is coerced to int; a negative or out-of-range index
yields no value.  Other kinds keep the trait default (no value). -/
def objIndex (fops : FOps) : ObjData → List Value → Option Value
  | .arr items, args =>
      let i := (args.headD .undefined).to_int fops
      if i < 0 then none else items[i.toNat]?
  | _, _ => none

/-- `Array::set_index` (src/gml/src/eval.rs:421-432): a negative index is
silently ignored; the vector grows with `Undefined` as needed.
`InstanceAlarm::set_index` (src/src/state/instance.rs:230-237) coerces the
first index and the value to int and calls `InstanceAlarm::set` (the source
indexes `args[0]`, which the evaluator only reaches with a non-empty index
list; an absent index is modelled as Undefined).  The other kinds keep the
trait default (silent no-op). -/
def objSetIndex (fops : FOps) : ObjData → List Value → Value →
    Except EvalError ObjData
  | .arr items, args, v =>
      let i := (args.headD .undefined).to_int fops
      if i < 0 then .ok (.arr items)
      else
        let n := i.toNat
        let items2 :=
          if items.length ≤ n then
            items ++ List.replicate (n + 1 - items.length) .undefined
          else items
        .ok (.arr (items2.set n v))
  | .alarmObj t, args, v =>
      .ok (.alarmObj
        (alarmSet t ((args.headD .undefined).to_int fops) (v.to_int fops)))
  | .names vars, _, _ => .ok (.names vars)
  | .inst st aid vars, _, _ => .ok (.inst st aid vars)

/-- The interpreter-level global state (`Global`,
src/src/state/global.rs:22-37, reduced to what script evaluation touches). -/
structure GlobalSt where
  consts : List (String × Value)
  gvars : List (String × Value)
  scripts : List (String × Script)
  store : List (ℕ × ObjData)
  nextId : ℕ

/-- Model of `gml::eval::Context` (src/gml/src/eval.rs:451-456): receiver id,
receiver object (as an id into the store), and the script-local namespace. -/
structure Ctx where
  instanceId : ℤ
  instObj : ℕ
  locals : List (String × Value)

/-- Store lookup by instance id. -/
def storeGet (g : GlobalSt) (id : ℕ) : Option ObjData :=
  (g.store.find? fun p => p.1 == id).map fun p => p.2

/-- Store update at an instance id. -/
def storeSet (g : GlobalSt) (id : ℕ) (o : ObjData) : GlobalSt :=
  {g with store := g.store.map fun p => if p.1 = id then (id, o) else p}

/-- Model of `Global::instance` (src/src/state/global.rs:237-263): resolve an
object id to its object; the model's store merges the id-keyed tables the
source consults (`added_instances`, `script_instances`,
`object_instances`). -/
def instanceLookup (g : GlobalSt) (id : ℤ) : Option ObjData :=
  if 0 ≤ id then storeGet g id.toNat else none

/-- Model of `Global::get` (src/src/state/global.rs:219-227): a name resolves
first as a script (yielding its index as an Int), then in the consts
namespace, then among the global vars. -/
def globalGetM (g : GlobalSt) (name : String) : Option Value :=
  match g.scripts.findIdx? (fun p => p.1 == name) with
  | some i => some (.int i)
  | none =>
    match alookup g.consts name with
    | some v => some v
    | none => alookup g.gvars name

/-- Model of `Global::set` (src/src/state/global.rs:229-235): writing a const
name fails with `AssignToValue`; otherwise the global vars namespace is
updated. -/
def globalSetM (g : GlobalSt) (name : String) (v : Value) :
    Except EvalError GlobalSt :=
  if (alookup g.consts name).isSome then .error .assignToValue
  else .ok {g with gvars := ainsert g.gvars name v}

/-- Model of `Context::var` (src/gml/src/eval.rs:497-516): a `Local` read
tries script locals, then the receiver's members, then globals, and yields
Undefined when all miss; a `Global` read tries globals only. -/
def ctxVar (fops : FOps) (g : GlobalSt) (c : Ctx) : GVar → Value
  | .globalV id => (globalGetM g id).getD .undefined
  | .localV id =>
    match alookup c.locals id with
    | some v => v
    | none =>
      match (storeGet g c.instObj).bind fun o => objMember fops o id with
      | some v => v
      | none => (globalGetM g id).getD .undefined

/-- Model of `Context::set_var` (src/gml/src/eval.rs:518-534): a `Local`
write mutates an existing script local, otherwise writes to the receiver (no
fallback to globals); a `Global` write goes to globals. -/
def ctxSetVar (fops : FOps) (g : GlobalSt) (c : Ctx) :
    GVar → Value → Except EvalError (GlobalSt × Ctx)
  | .globalV id, v => (globalSetM g id v).map fun g2 => (g2, c)
  | .localV id, v =>
    if (alookup c.locals id).isSome then
      .ok (g, {c with locals := ainsert c.locals id v})
    else
      match storeGet g c.instObj with
      | some o =>
          (objSetMember fops o id v).map fun o2 => (storeSet g c.instObj o2, c)
      | none => .ok (g, c)

/-- Model of `Context::get` (src/gml/src/eval.rs:474-480): property read for
an object id — GLOBAL (0) reads globals, LOCAL (-1) reads script locals,
any other id reads a member of the resolved instance (failing with
`InvalidObject` when the id does not resolve). -/
def ctxGet (fops : FOps) (g : GlobalSt) (c : Ctx) (id : ℤ) (name : String) :
    Except EvalError (Option Value) :=
  if id = 0 then .ok (globalGetM g name)
  else if id = -1 then .ok (alookup c.locals name)
  else
    match instanceLookup g id with
    | some o => .ok (objMember fops o name)
    | none => .error (.invalidObject (.int id))

/-- Model of `Context::set` (src/gml/src/eval.rs:482-495): property write for
an object id, with the same sentinel handling as `ctxGet`. -/
def ctxSet (fops : FOps) (g : GlobalSt) (c : Ctx) (id : ℤ) (name : String)
    (v : Value) : Except EvalError (GlobalSt × Ctx) :=
  if id = 0 then (globalSetM g name v).map fun g2 => (g2, c)
  else if id = -1 then .ok (g, {c with locals := ainsert c.locals name v})
  else
    match instanceLookup g id with
    | some o =>
        (objSetMember fops o name v).map fun o2 =>
          (if 0 ≤ id then storeSet g id.toNat o2 else g, c)
    | none => .error (.invalidObject (.int id))

/-- Model of Rust `str::get(index..).unwrap_or_default()` for the string
indexing of `place_value` (byte positions coincide with character positions
on the ASCII strings game scripts index). -/
def strSuffixFrom (s : String) (i : ℕ) : String := s.drop i

/-- The `argument0`, `argument1`, … bindings `exec_script` installs in the
fresh locals namespace (src/gml/src/eval.rs:596-600). -/
def bindArgs (args : List Value) : List (String × Value) :=
  (args.enum).foldl
    (fun ns p => ainsert ns ("argument" ++ toString p.1) p.2) []

/-- An evaluation outcome carrying the final state: `ok` and `err` mirror the
source's `Result`, `stuck` marks fuel exhaustion or a Rust panic. -/
inductive Res (α : Type) where
  | ok (a : α) (g : GlobalSt) (c : Ctx)
  | err (e : EvalError) (g : GlobalSt) (c : Ctx)
  | stuck

/-- How the statement loop of `exec_script` ends: fell off the end, stopped
at `exit`, returned a value, failed with a (script-name-wrapped) error, or
got stuck. -/
inductive RunOut where
  | completed
  | exited
  | returned (v : Value)
  | failed (e : EvalError)
  | stuck

mutual

/-- Model of `Context::eval` (src/gml/src/eval.rs:715-718): resolve the
expression to a place, then read the place. -/
def evalE (fops : FOps) (fuel : ℕ) (g : GlobalSt) (c : Ctx) (e : Expr) :
    Res Value :=
  match fuel with
  | 0 => .stuck
  | fuel + 1 =>
    match evalPlace fops fuel g c e with
    | .ok p g c => placeValue fops fuel g c p
    | .err e2 g c => .err e2 g c
    | .stuck => .stuck

/-- Model of `Context::eval_place` (src/gml/src/eval.rs:720-793). -/
def evalPlace (fops : FOps) (fuel : ℕ) (g : GlobalSt) (c : Ctx) (e : Expr) :
    Res Place :=
  match fuel with
  | 0 => .stuck
  | fuel + 1 =>
    match e with
    | .var v => .ok (.var v) g c
    | .int n => .ok (.value (.int n)) g c
    | .float x => .ok (.value (.float x)) g c
    | .str s => .ok (.value (.str s)) g c
    | .unary op e1 =>
      match evalPlace fops fuel g c e1 with
      | .ok p g c =>
        (match op with
         | .not =>
           match placeValue fops fuel g c p with
           | .ok v g c => .ok (.value (.bool (!v.to_bool))) g c
           | .err e2 g c => .err e2 g c
           | .stuck => .stuck
         | .pos =>
           match placeValue fops fuel g c p with
           | .ok v g c => .ok (.value (.int (v.to_int fops))) g c
           | .err e2 g c => .err e2 g c
           | .stuck => .stuck
         | .neg =>
           match placeValue fops fuel g c p with
           | .ok v g c => .ok (.value (.int (wrap32 (-(v.to_int fops))))) g c
           | .err e2 g c => .err e2 g c
           | .stuck => .stuck
         | .bitNot =>
           match placeValue fops fuel g c p with
           | .ok v g c => .ok (.value (.int (-(v.to_int fops) - 1))) g c
           | .err e2 g c => .err e2 g c
           | .stuck => .stuck
         | _ => .stuck)
      | .err e2 g c => .err e2 g c
      | .stuck => .stuck
    | .binary l op r =>
      match evalE fops fuel g c l with
      | .ok lv g c =>
        match evalE fops fuel g c r with
        | .ok rv g c =>
          (match evalBinOp fops op lv rv with
           | none => .stuck
           | some (.ok v) => .ok (.value v) g c
           | some (.error e2) => .err e2 g c)
        | .err e2 g c => .err e2 g c
        | .stuck => .stuck
      | .err e2 g c => .err e2 g c
      | .stuck => .stuck
    | .member lhs name =>
      match evalE fops fuel g c lhs with
      | .ok v g c =>
        (match v with
         | .int n => .ok (.property n name) g c
         | v2 => .err (.invalidObject v2) g c)
      | .err e2 g c => .err e2 g c
      | .stuck => .stuck
    | .index lhs indices =>
      match evalPlace fops fuel g c lhs with
      | .ok p g c =>
        match evalArgs fops fuel g c indices with
        | .ok vs g c => .ok (.index p vs) g c
        | .err e2 g c => .err e2 g c
        | .stuck => .stuck
      | .err e2 g c => .err e2 g c
      | .stuck => .stuck
    | .call line col name args =>
      match evalArgs fops fuel g c args with
      | .ok vs g c =>
        match callFn fops fuel g c name vs with
        | .ok v g c => .ok (.value v) g c
        | .err e2 g c => .err (.withPosition e2 line col) g c
        | .stuck => .stuck
      | .err e2 g c => .err (.withPosition e2 line col) g c
      | .stuck => .stuck

/-- Left-to-right evaluation of an argument (or index) list, stopping at the
first error. -/
def evalArgs (fops : FOps) (fuel : ℕ) (g : GlobalSt) (c : Ctx)
    (es : List Expr) : Res (List Value) :=
  match fuel with
  | 0 => .stuck
  | fuel + 1 =>
    match es with
    | [] => .ok [] g c
    | e :: rest =>
      match evalE fops fuel g c e with
      | .ok v g c =>
        match evalArgs fops fuel g c rest with
        | .ok vs g c => .ok (v :: vs) g c
        | .err e2 g c => .err e2 g c
        | .stuck => .stuck
      | .err e2 g c => .err e2 g c
      | .stuck => .stuck

/-- Model of `Context::place_value` (src/gml/src/eval.rs:536-565). -/
def placeValue (fops : FOps) (fuel : ℕ) (g : GlobalSt) (c : Ctx) (p : Place) :
    Res Value :=
  match fuel with
  | 0 => .stuck
  | fuel + 1 =>
    match p with
    | .value v => .ok v g c
    | .var v => .ok (ctxVar fops g c v) g c
    | .property id name =>
      (match ctxGet fops g c id name with
       | .ok ov => .ok (ov.getD .undefined) g c
       | .error e2 => .err e2 g c)
    | .index lhs indices =>
      match placeValue fops fuel g c lhs with
      | .ok lv g c =>
        (match lv with
         | .undefined => .ok .undefined g c
         | .int id =>
           match instanceLookup g id with
           | some o => .ok ((objIndex fops o indices).getD .undefined) g c
           | none => .err (.invalidObject (.int id)) g c
         | .str s =>
           let i := (max 0 ((indices.headD .undefined).to_int fops - 1)).toNat
           .ok (.str (strSuffixFrom s i)) g c
         | lv2 => .err (.invalidObject lv2) g c)
      | .err e2 g c => .err e2 g c
      | .stuck => .stuck

/-- Model of `Context::set_place` (src/gml/src/eval.rs:567-593), including
array autovivification: writing through an `Index` whose base reads
Undefined allocates a fresh `Array` object in the store, stores its id back
through the base place, and indexes into it. -/
def setPlace (fops : FOps) (fuel : ℕ) (g : GlobalSt) (c : Ctx) (p : Place)
    (v : Value) : Res Unit :=
  match fuel with
  | 0 => .stuck
  | fuel + 1 =>
    match p with
    | .value _ => .err .assignToValue g c
    | .var var =>
      (match ctxSetVar fops g c var v with
       | .ok gc => .ok () gc.1 gc.2
       | .error e2 => .err e2 g c)
    | .property id name =>
      (match ctxSet fops g c id name v with
       | .ok gc => .ok () gc.1 gc.2
       | .error e2 => .err e2 g c)
    | .index lhsPlace indices =>
      match placeValue fops fuel g c lhsPlace with
      | .ok lv g c =>
        (match lv with
         | .undefined =>
           let id := g.nextId
           let g2 := {g with nextId := id + 1, store := g.store ++ [(id, .arr [])]}
           (match setPlace fops fuel g2 c lhsPlace (.int id) with
            | .ok _ g c => setIndexOn fops g c (id : ℤ) indices v
            | .err e2 g c => .err e2 g c
            | .stuck => .stuck)
         | .int id => setIndexOn fops g c id indices v
         | lv2 => .err (.invalidObject lv2) g c)
      | .err e2 g c => .err e2 g c
      | .stuck => .stuck

/-- The shared tail of the `Index` arm of `set_place`: resolve the id and
call the object's `set_index`. -/
def setIndexOn (fops : FOps) (g : GlobalSt) (c : Ctx) (id : ℤ)
    (indices : List Value) (v : Value) : Res Unit :=
  match instanceLookup g id with
  | some o =>
    (match objSetIndex fops o indices v with
     | .ok o2 => .ok () (if 0 ≤ id then storeSet g id.toNat o2 else g) c
     | .error e2 => .err e2 g c)
  | none => .err (.invalidObject (.int id)) g c

/-- Model of `Context::exec_assign` (src/gml/src/eval.rs:695-713): resolve
the left place, evaluate the right side, fold with the old value for
compound operators (where `/=` can hit the division panic), and write the
place. -/
def execA (fops : FOps) (fuel : ℕ) (g : GlobalSt) (c : Ctx) (a : Assign) :
    Res Unit :=
  match fuel with
  | 0 => .stuck
  | fuel + 1 =>
    match evalPlace fops fuel g c a.lhs with
    | .ok lhsPlace g c =>
      match evalE fops fuel g c a.rhs with
      | .ok rhs g c =>
        (match a.op with
         | .assign => setPlace fops fuel g c lhsPlace rhs
         | op =>
           match placeValue fops fuel g c lhsPlace with
           | .ok lhs g c =>
             (match (match op with
                     | .addAssign => some (lhs.add fops rhs)
                     | .subAssign => some (lhs.sub fops rhs)
                     | .mulAssign => some (lhs.mul fops rhs)
                     | _ => lhs.div fops rhs) with
              | none => .stuck
              | some (.ok v) => setPlace fops fuel g c lhsPlace v
              | some (.error e2) => .err e2 g c)
           | .err e2 g c => .err e2 g c
           | .stuck => .stuck)
      | .err e2 g c => .err e2 g c
      | .stuck => .stuck
    | .err e2 g c => .err e2 g c
    | .stuck => .stuck

/-- Model of `Context::exec` (src/gml/src/eval.rs:612-679). -/
def execS (fops : FOps) (fuel : ℕ) (g : GlobalSt) (c : Ctx) (s : Stmt) :
    Res Unit :=
  match fuel with
  | 0 => .stuck
  | fuel + 1 =>
    match s with
    | .exprS line col e =>
      match evalE fops fuel g c e with
      | .ok _ g c => .ok () g c
      | .err e2 g c => .err (.withPosition e2 line col) g c
      | .stuck => .stuck
    | .varDecl id => .ok () g {c with locals := ainsert c.locals id .undefined}
    | .assignS line col a =>
      match execA fops fuel g c a with
      | .ok _ g c => .ok () g c
      | .err e2 g c => .err (.withPosition e2 line col) g c
      | .stuck => .stuck
    | .ifS cond body alt =>
      match evalE fops fuel g c cond with
      | .ok v g c =>
        if v.to_bool then execS fops fuel g c body
        else
          (match alt with
           | some a => execS fops fuel g c a
           | none => .ok () g c)
      | .err e2 g c => .err e2 g c
      | .stuck => .stuck
    | .repeatS count body =>
      match evalE fops fuel g c count with
      | .ok v g c => execTimes fops fuel g c body (v.to_int fops).toNat
      | .err e2 g c => .err e2 g c
      | .stuck => .stuck
    | .whileS cond body => execWhile fops fuel g c cond body
    | .forS init cond update body =>
      match execA fops fuel g c init with
      | .ok _ g c => execFor fops fuel g c cond update body
      | .err e2 g c => .err e2 g c
      | .stuck => .stuck
    | .withS obj body =>
      match evalE fops fuel g c obj with
      | .ok v g c =>
        (match v with
         | .int n =>
           match instanceLookup g n with
           | some _ =>
             -- with_instance: swap receiver, run, restore even on error
             (match execS fops fuel g
                 {c with instanceId := n, instObj := n.toNat} body with
              | .ok _ g c2 =>
                  .ok () g {c2 with instanceId := c.instanceId,
                                    instObj := c.instObj}
              | .err e2 g c2 =>
                  .err e2 g {c2 with instanceId := c.instanceId,
                                     instObj := c.instObj}
              | .stuck => .stuck)
           | none => .err (.invalidObject (.int n)) g c
         | v2 => .err (.invalidObject v2) g c)
      | .err e2 g c => .err e2 g c
      | .stuck => .stuck
    | .ret e =>
      match evalE fops fuel g c e with
      | .ok v g c => .err (.ret v) g c
      | .err e2 g c => .err e2 g c
      | .stuck => .stuck
    | .exitS => .err .exit g c
    | .block stmts => execBlock fops fuel g c stmts
    | .empty => .ok () g c

/-- The `repeat` loop: execute the body a fixed number of times, propagating
errors. -/
def execTimes (fops : FOps) (fuel : ℕ) (g : GlobalSt) (c : Ctx) (body : Stmt) :
    ℕ → Res Unit
  | 0 => .ok () g c
  | n + 1 =>
    match fuel with
    | 0 => .stuck
    | fuel + 1 =>
      match execS fops fuel g c body with
      | .ok _ g c => execTimes fops fuel g c body n
      | .err e2 g c => .err e2 g c
      | .stuck => .stuck

/-- The `while` loop of `exec`: test, run body, repeat. -/
def execWhile (fops : FOps) (fuel : ℕ) (g : GlobalSt) (c : Ctx) (cond : Expr)
    (body : Stmt) : Res Unit :=
  match fuel with
  | 0 => .stuck
  | fuel + 1 =>
    match evalE fops fuel g c cond with
    | .ok v g c =>
      if v.to_bool then
        match execS fops fuel g c body with
        | .ok _ g c => execWhile fops fuel g c cond body
        | .err e2 g c => .err e2 g c
        | .stuck => .stuck
      else .ok () g c
    | .err e2 g c => .err e2 g c
    | .stuck => .stuck

/-- The `for` loop of `exec` after its init assignment: test, run body, run
update, repeat. -/
def execFor (fops : FOps) (fuel : ℕ) (g : GlobalSt) (c : Ctx) (cond : Expr)
    (update : Assign) (body : Stmt) : Res Unit :=
  match fuel with
  | 0 => .stuck
  | fuel + 1 =>
    match evalE fops fuel g c cond with
    | .ok v g c =>
      if v.to_bool then
        match execS fops fuel g c body with
        | .ok _ g c =>
          match execA fops fuel g c update with
          | .ok _ g c => execFor fops fuel g c cond update body
          | .err e2 g c => .err e2 g c
          | .stuck => .stuck
        | .err e2 g c => .err e2 g c
        | .stuck => .stuck
      else .ok () g c
    | .err e2 g c => .err e2 g c
    | .stuck => .stuck

/-- The `{ ... }` block loop of `exec`: statements in order, errors
propagate raw. -/
def execBlock (fops : FOps) (fuel : ℕ) (g : GlobalSt) (c : Ctx) :
    List Stmt → Res Unit
  | [] => .ok () g c
  | s :: rest =>
    match fuel with
    | 0 => .stuck
    | fuel + 1 =>
      match execS fops fuel g c s with
      | .ok _ g c => execBlock fops fuel g c rest
      | .err e2 g c => .err e2 g c
      | .stuck => .stuck

/-- The statement loop of `Context::exec_script`
(src/gml/src/eval.rs:601-607): each statement's result is matched — `Exit`
stops the loop, `Return(v)` leaves with the value, any other error is
wrapped with the script name and propagates. -/
def runStmts (fops : FOps) (fuel : ℕ) (g : GlobalSt) (c : Ctx)
    (sname : String) : List Stmt → RunOut × GlobalSt × Ctx
  | [] => (.completed, g, c)
  | s :: rest =>
    match fuel with
    | 0 => (.stuck, g, c)
    | fuel + 1 =>
      match execS fops fuel g c s with
      | .ok _ g c => runStmts fops fuel g c sname rest
      | .err .exit g c => (.exited, g, c)
      | .err (.ret v) g c => (.returned v, g, c)
      | .err e2 g c => (.failed (.withScriptName e2 sname), g, c)
      | .stuck => (.stuck, g, c)

/-- Model of `Context::exec_script` (src/gml/src/eval.rs:595-610): save the
caller's locals, install a fresh namespace holding the `argumentN` bindings,
run the statements, and reassemble — the fell-off-the-end and `exit` paths
restore the saved locals before returning `Undefined`; the `return` and
error paths leave the function immediately, with the invocation's locals
still in place. -/
def execScript (fops : FOps) (fuel : ℕ) (g : GlobalSt) (c : Ctx) (sc : Script)
    (args : List Value) : Res Value :=
  match fuel with
  | 0 => .stuck
  | fuel + 1 =>
    let old := c.locals
    match runStmts fops fuel g {c with locals := bindArgs args}
        sc.name sc.stmts with
    | (.completed, g, c) => .ok .undefined g {c with locals := old}
    | (.exited, g, c) => .ok .undefined g {c with locals := old}
    | (.returned v, g, c) => .ok v g c
    | (.failed e2, g, c) => .err e2 g c
    | (.stuck, _, _) => .stuck

/-- Model of `Global::call` (src/src/state/global.rs:276-288): a name in the
script table runs that script via `exec_script`; otherwise the host library
is consulted (outside this model), whose fallthrough for unknown names is
`UndefinedFunction`. -/
def callFn (fops : FOps) (fuel : ℕ) (g : GlobalSt) (c : Ctx) (name : String)
    (args : List Value) : Res Value :=
  match fuel with
  | 0 => .stuck
  | fuel + 1 =>
    match alookup g.scripts name with
    | some sc => execScript fops fuel g c sc args
    | none => .err (.undefinedFunction name) g c

end

/-- The full vk name set required by the specification. -/
def specVkNames : List String :=
  ["vk_nokey", "vk_anykey", "vk_backspace", "vk_tab", "vk_enter", "vk_shift",
   "vk_control", "vk_alt", "vk_escape", "vk_space", "vk_pageup",
   "vk_pagedown", "vk_end", "vk_home", "vk_left", "vk_up", "vk_right",
   "vk_down", "vk_insert", "vk_delete",
   "vk_numpad0", "vk_numpad1", "vk_numpad2", "vk_numpad3", "vk_numpad4",
   "vk_numpad5", "vk_numpad6", "vk_numpad7", "vk_numpad8", "vk_numpad9",
   "vk_multiply", "vk_add", "vk_subtract", "vk_decimal", "vk_divide",
   "vk_f1", "vk_f2", "vk_f3", "vk_f4", "vk_f5", "vk_f6", "vk_f7", "vk_f8",
   "vk_f9", "vk_f10", "vk_f11", "vk_f12"]

/-- The `gmk_file::Key` codes (`i32::from`) of the first 35 entries of
`specVkNames` (everything up to `vk_divide`). -/
def specVkCodes : List ℤ :=
  [0, 1, 8, 9, 13, 16, 17, 18, 27, 32, 33, 34, 35, 36, 37, 38, 39, 40, 45,
   46, 96, 97, 98, 99, 100, 101, 102, 103, 104, 105, 106, 107, 108, 109,
   110]

/-- Lookup into an alarm table by alarm index (`HashMap<i32, i32>::get`). -/
def alarmLookup (a : List (ℤ × ℤ)) (i : ℤ) : Option ℤ :=
  (a.find? fun p => p.1 == i).map fun p => p.2

/-! ## Concrete scenario states used by counterexamples -/

/-- An empty interpreter global state. -/
def g0 : GlobalSt := ⟨[], [], [], [], 0⟩

/-- A context with the LOCAL receiver sentinels and empty locals. -/
def c0 : Ctx := ⟨-1, 0, []⟩

/-- A freshly created instance state as `Global::instance_create` builds it
(src/src/state/global.rs:182-200): position 0, object depth 0, default
(cartesian zero) velocity, visible, sprite -1 handled elsewhere — the
concrete numbers only matter to the counterexamples that use them. -/
def instState0 : InstState :=
  ⟨0, 0, 0, .cartesian 0 0, true, 0, false, 1, 0, 1, 1, 1, 1⟩

/-- An interpreter global whose consts namespace is `defineConsts []`. -/
def g9 : GlobalSt := ⟨defineConsts [], [], [], [], 0⟩

/-- C2 scenario object type: handlers for StepBegin, StepEnd and Destroy
(with empty action lists) and a StepNormal handler whose single action is
`instance_destroy()` on self. -/
def defsC2 : ℕ → Option RObjDef := fun i =>
  if i = 0 then
    some ⟨fun e =>
      match e with
      | .stepBegin => some []
      | .stepNormal => some [.killObject]
      | .stepEnd => some []
      | .destroy => some []
      | _ => none, none⟩
  else none

/-- C2 scenario room: one live instance A with id 1 of type 0. -/
def roomC2 : RoomState := ⟨[⟨1, 0, []⟩], [], [], 2, []⟩

/-- C3 scenario object types: type 0's StepNormal handler creates an
instance of type 1 and destroys instance 3; type 1 has no handlers. -/
def defsC3 : ℕ → Option RObjDef := fun i =>
  if i = 0 then
    some ⟨fun e =>
      match e with
      | .stepNormal => some [.createInst 1, .destroyId 3]
      | _ => none, none⟩
  else if i = 1 then some ⟨fun _ => none, none⟩
  else none

/-- C3 scenario room: instances 1, 2, 3 (all of type 0) inserted in the
order 1, 2, 3, with the live map iterating them as [2, 1, 3] — a legal
iteration order of the underlying `HashMap`, whose order is unspecified. -/
def roomC3 : RoomState :=
  ⟨[⟨2, 0, []⟩, ⟨1, 0, []⟩, ⟨3, 0, []⟩], [], [], 10, []⟩

/-! # Theorems -/

/-! ## C10: unguarded integer division -/

/-- C10: evaluating the binary `/`, `div` or `mod` operator on two Int
operands whose right operand is 0 reaches Rust's panicking integer
division/remainder (`none` in the model) instead of returning a Value or an
evaluation Error — and the panic surfaces through the public evaluation
interface (`Context::eval` on the corresponding binary expression gets
stuck rather than producing a `Res.ok` or `Res.err`). -/
theorem c10_div_by_zero_panics (fops : FOps) :
    evalBinOp fops .div (.int 1) (.int 0) = none ∧
    evalBinOp fops .idiv (.int 1) (.int 0) = none ∧
    evalBinOp fops .imod (.int 1) (.int 0) = none ∧
    evalE fops 8 g0 c0 (.binary (.int 1) .div (.int 0)) = .stuck ∧
    evalE fops 8 g0 c0 (.binary (.int 1) .idiv (.int 0)) = .stuck ∧
    evalE fops 8 g0 c0 (.binary (.int 1) .imod (.int 0)) = .stuck :=
  ⟨rfl, rfl, rfl, rfl, rfl, rfl⟩

/-! ## C1: string concatenation of the binary plus operator -/

/-- C1 counterexample: the claim asserts `String(a) + v` concatenates for
every `v` and in particular that `"ab" + 3` yields `String "ab3"` without
an `InvalidOperands` failure; evaluating the code at that exact input
produces the `InvalidOperands` error instead (a string on the left of `+`
only concatenates when the right operand is also a string). -/
theorem c1_counterexample :
    Value.add fops0 (.str "ab") (.int 3) =
      .error (.invalidOperands (.str "ab") (.int 3)) ∧
    evalE fops0 8 g0 c0 (.binary (.str "ab") .add (.int 3)) =
      .err (.invalidOperands (.str "ab") (.int 3)) g0 c0 :=
  ⟨rfl, rfl⟩

/-- C1 (amended): `+` concatenates when the right operand is a String —
`v + String(b)` yields `String(to_str(v) ++ b)` for every value `v`,
including a String on the left (so `String + String` concatenates) — while
`String(a) + v` for a non-String `v` fails with `InvalidOperands`; in
particular `3 + "ab"` yields `String "3ab"` and `"ab" + 3` is an error. -/
theorem c1_add_string_amended (fops : FOps) (v : Value) (a b : String) :
    Value.add fops v (.str b) = .ok (.str (v.to_str fops ++ b)) ∧
    (v.isStr = false →
      Value.add fops (.str a) v = .error (.invalidOperands (.str a) v)) := by
  cases v with
  | undefined => exact ⟨rfl, fun _ => rfl⟩
  | bool b2 => exact ⟨rfl, fun _ => rfl⟩
  | int n => exact ⟨rfl, fun _ => rfl⟩
  | float x => exact ⟨rfl, fun _ => rfl⟩
  | str s => exact ⟨rfl, fun h => by simp [Value.isStr] at h⟩

/-- C1 amended witness at `v = Int 3` and `v = String "cd"`, `a = b = "ab"`:
`3 + "ab"` is `String "3ab"`, `"cd" + "ab"` is `String "cdab"`, and
`"ab" + 3` is `InvalidOperands`. -/
theorem c1_add_string_amended_witness :
    (Value.add fops0 (.int 3) (.str "ab") =
        .ok (.str (Value.to_str fops0 (.int 3) ++ "ab"))) ∧
    (Value.add fops0 (.str "cd") (.str "ab") =
        .ok (.str (Value.to_str fops0 (.str "cd") ++ "ab"))) ∧
    Value.isStr (.int 3) = false ∧
    Value.add fops0 (.str "ab") (.int 3) =
      .error (.invalidOperands (.str "ab") (.int 3)) :=
  ⟨(c1_add_string_amended fops0 (.int 3) "ab" "ab").1,
   (c1_add_string_amended fops0 (.str "cd") "ab" "ab").1,
   rfl,
   (c1_add_string_amended fops0 (.int 3) "ab" "ab").2 rfl⟩

/-! ## C9: pre-bound key constants -/

/-- C9 counterexample: the claim asserts every name of the specified vk set
— `vk_f1` among them — is pre-bound as a const and resolves to its key code
rather than to Undefined; in the code's `define_consts` output `vk_f1` is
absent, and a variable read of `vk_f1` through the name-resolution chain
yields Undefined. -/
theorem c9_counterexample :
    alookup (defineConsts []) "vk_f1" = none ∧
    globalGetM g9 "vk_f1" = none ∧
    ctxVar fops0 g9 c0 (.localV "vk_f1") = .undefined := by
  refine ⟨by decide, ?_, ?_⟩ <;> rfl

/-- C9 (amended): of the specified vk name set, the 35 names up to
`vk_divide` are pre-bound to exactly the `gmk_file::Key` codes, while the
twelve names `vk_f1` … `vk_f12` are not bound at all. -/
theorem c9_vk_consts_amended :
    ((specVkNames.take 35).map fun n => alookup (defineConsts []) n) =
      specVkCodes.map (fun z => some (Value.int z)) ∧
    ((specVkNames.drop 35).map fun n => alookup (defineConsts []) n) =
      List.replicate 12 none := by
  constructor <;> decide

/-! ## C6: instance member routing -/

/-- C6 counterexample: the claim asserts member reads of `speed` (and
`hspeed`, …) are routed to the structured instance state, converting on
demand from the underlying velocity; in the code a `speed` read falls
through to the free-form variable map — on an instance whose velocity is
`Polar (length 5)` the read yields nothing (Undefined) instead of 5, and
with a stray `speed` entry in the variable map the read returns that entry. -/
theorem c6_counterexample :
    instMember {instState0 with velocity := .polar 5 0} 7 [] "speed" = none ∧
    instMember {instState0 with velocity := .polar 5 0} 7 [] "hspeed" = none ∧
    instMember instState0 7 [("speed", .int 3)] "speed" = some (.int 3) :=
  ⟨rfl, rfl, rfl⟩

/-- C6 (amended): member writes of all fifteen structured names are routed
to the structured instance state and leave the free-form variable map
untouched — with the exact effects of the source: `speed`/`direction`
switch the velocity representation to polar (keeping the other polar
component), `hspeed`/`vspeed` switch it to cartesian, `alarm` is rejected
via `AssignToValue`, `sprite_index` also resets `image_index` and drops the
cached sprite handle, `image_single` sets speed or index depending on sign,
and `image_blend` unpacks the low three little-endian bytes — and member
reads are routed to structured state for the ten names `x y depth visible
alarm sprite_index image_speed image_index image_single image_alpha`, while
reads of `speed`, `direction`, `hspeed`, `vspeed` and `image_blend` fall
through to the free-form variable map (no on-demand conversion from the
underlying velocity). -/
theorem c6_member_routing_amended (fops : FOps) (st : InstState) (aid : ℤ)
    (vars : List (String × Value)) (v : Value) :
    (instSetMember fops st vars "x" v =
       .ok ({st with posX := v.to_float fops}, vars) ∧
     instSetMember fops st vars "y" v =
       .ok ({st with posY := v.to_float fops}, vars) ∧
     instSetMember fops st vars "depth" v =
       .ok ({st with depth := v.to_int fops}, vars) ∧
     instSetMember fops st vars "visible" v =
       .ok ({st with visible := v.to_bool}, vars) ∧
     instSetMember fops st vars "speed" v =
       .ok ({st with velocity :=
         Velocity.polar (v.to_float fops) (st.velocity.pol fops).2}, vars) ∧
     instSetMember fops st vars "direction" v =
       .ok ({st with velocity :=
         Velocity.polar (st.velocity.pol fops).1 (v.to_float fops)}, vars) ∧
     instSetMember fops st vars "hspeed" v =
       .ok ({st with velocity :=
         Velocity.cartesian (v.to_float fops) (st.velocity.cart fops).2}, vars) ∧
     instSetMember fops st vars "vspeed" v =
       .ok ({st with velocity :=
         Velocity.cartesian (st.velocity.cart fops).1 (v.to_float fops)}, vars) ∧
     instSetMember fops st vars "alarm" v = .error .assignToValue ∧
     instSetMember fops st vars "sprite_index" v =
       .ok ({st with spriteIndex := v.to_int fops, imageIndex := 0,
                     spriteAssetCached := false}, vars) ∧
     instSetMember fops st vars "image_speed" v =
       .ok ({st with imageSpeed := v.to_float fops}, vars) ∧
     instSetMember fops st vars "image_index" v =
       .ok ({st with imageIndex := v.to_float fops}, vars) ∧
     instSetMember fops st vars "image_single" v =
       (if v.to_float fops < 0 then .ok ({st with imageSpeed := 1}, vars)
        else .ok ({st with imageSpeed := 0,
                           imageIndex := v.to_float fops}, vars)) ∧
     instSetMember fops st vars "image_blend" v =
       .ok ({st with blendR := (u32ByteLE (v.to_int fops) 0 : ℚ) / 255,
                     blendG := (u32ByteLE (v.to_int fops) 1 : ℚ) / 255,
                     blendB := (u32ByteLE (v.to_int fops) 2 : ℚ) / 255},
            vars) ∧
     instSetMember fops st vars "image_alpha" v =
       .ok ({st with blendA := v.to_float fops}, vars)) ∧
    (instMember st aid vars "x" = some (.float st.posX) ∧
     instMember st aid vars "y" = some (.float st.posY) ∧
     instMember st aid vars "depth" = some (.int st.depth) ∧
     instMember st aid vars "visible" = some (.bool st.visible) ∧
     instMember st aid vars "alarm" = some (.int aid) ∧
     instMember st aid vars "sprite_index" = some (.int st.spriteIndex) ∧
     instMember st aid vars "image_speed" = some (.float st.imageSpeed) ∧
     instMember st aid vars "image_index" = some (.float st.imageIndex) ∧
     instMember st aid vars "image_single" =
       some (.float (if st.imageSpeed > 0 then st.imageIndex else -1)) ∧
     instMember st aid vars "image_alpha" = some (.float st.blendA)) ∧
    (instMember st aid vars "speed" = alookup vars "speed" ∧
     instMember st aid vars "direction" = alookup vars "direction" ∧
     instMember st aid vars "hspeed" = alookup vars "hspeed" ∧
     instMember st aid vars "vspeed" = alookup vars "vspeed" ∧
     instMember st aid vars "image_blend" = alookup vars "image_blend") :=
  ⟨⟨rfl, rfl, rfl, rfl, rfl, rfl, rfl, rfl, rfl, rfl, rfl, rfl, rfl, rfl,
    rfl⟩,
   ⟨rfl, rfl, rfl, rfl, rfl, rfl, rfl, rfl, rfl, rfl⟩,
   ⟨rfl, rfl, rfl, rfl, rfl⟩⟩

/-! ## C2: destroy during StepNormal -/

/-- C2 counterexample: the claim asserts that when instance A destroys
itself during a StepNormal dispatch pass, A's StepEnd handler still runs in
the same sub-tick and A's Destroy handler runs only during the end-of-frame
cleanup stage.  Running one sub-tick of the C2 scenario, A's StepEnd handler
never executes: the cleanup that `Room::dispatch` runs at the end of the
StepNormal pass removes A (dispatching Destroy right there) before the
StepEnd pass begins. -/
theorem c2_counterexample :
    (1, REvent.stepEnd) ∉ (subTick defsC2 8 roomC2).trace ∧
    (1, REvent.destroy) ∈ (subTick defsC2 8 roomC2).trace := by
  constructor <;> decide

/-- C2 (amended): in the C2 scenario — instance A (id 1) with StepBegin,
StepEnd and Destroy handlers whose StepNormal handler calls
`instance_destroy()` on itself — one sub-tick executes A's StepBegin and
StepNormal handlers and then A's Destroy handler (during the cleanup that
immediately ends the StepNormal dispatch pass, before StepEnd); A's StepEnd
handler does not run; A is removed from the live map, and the next sub-tick
dispatches nothing to A (in particular no StepBegin). -/
theorem c2_deferred_destroy_amended :
    (subTick defsC2 8 roomC2).trace =
      [(1, .stepBegin), (1, .stepNormal), (1, .destroy)] ∧
    (subTick defsC2 8 roomC2).live = [] ∧
    (subTick defsC2 8 (subTick defsC2 8 roomC2)).trace =
      [(1, .stepBegin), (1, .stepNormal), (1, .destroy)] := by
  refine ⟨by decide, by decide, by decide⟩

/-! ## C3: dispatch order -/

/-- C3: the live-instance map is a `HashMap<u32, Rc<Instance>>`, whose
iteration order is unspecified; a single dispatch pass calls handlers in
that iteration order, not in insertion order.  In the C3 scenario the map
holds instances inserted in the order 1, 2, 3, iterated as [2, 1, 3] (a
legal HashMap state); the pass calls the handlers in the order 2, 1, 3 —
even though every handler creates and destroys instances, the in-pass order
is exactly the iteration order — which differs from the insertion order
1, 2, 3 the claim requires. -/
theorem c3_dispatch_order_follows_hash_order :
    passCallOrder defsC3 8 .stepNormal roomC3 = [2, 1, 3] ∧
    roomC3.live.map LiveInst.id = [2, 1, 3] ∧
    [2, 1, 3] ≠ [1, 2, 3] := by
  refine ⟨by decide, by decide, by decide⟩

/-! ## C7: per-invocation locals -/

/-- C7: `Context::exec_script` restores the caller's locals on the
fall-off-the-end and `exit` paths but not on the `return expr` path — there
the invocation's own locals are left installed.  With caller locals
`x ↦ Int 1`, a callee `return 0;` comes back with the locals namespace
empty (the callee's), while a callee `exit;` restores `x ↦ Int 1`. -/
theorem c7_locals_lost_on_return_path :
    execScript fops0 8 g0 ⟨-1, 0, [("x", .int 1)]⟩
        ⟨"s", [.ret (.int 0)]⟩ [] = .ok (.int 0) g0 ⟨-1, 0, []⟩ ∧
    execScript fops0 8 g0 ⟨-1, 0, [("x", .int 1)]⟩
        ⟨"s", [.exitS]⟩ [] = .ok .undefined g0 ⟨-1, 0, [("x", .int 1)]⟩ ∧
    execScript fops0 8 g0 ⟨-1, 0, [("x", .int 1)]⟩
        ⟨"s", [.empty]⟩ [] = .ok .undefined g0 ⟨-1, 0, [("x", .int 1)]⟩ :=
  ⟨rfl, rfl, rfl⟩

/-! ## Decoder lemmas (C5, C4) -/

theorem tableSwap_apply (j k : ℕ) (f : ℕ → ℕ) (x : ℕ) :
    tableSwap j k f x = f (natSwap j k x) := by
  unfold tableSwap natSwap
  by_cases h1 : x = j
  · simp [h1]
  · by_cases h2 : x = k
    · by_cases h3 : k = j <;> simp [h1, h2, h3]
    · simp [h1, h2]

theorem natSwap_invol (j k x : ℕ) : natSwap j k (natSwap j k x) = x := by
  unfold natSwap
  split_ifs <;> omega

theorem natSwap_inj (j k : ℕ) : Function.Injective (natSwap j k) :=
  Function.LeftInverse.injective (g := natSwap j k) (natSwap_invol j k)

theorem natSwap_lt_256 {j k x : ℕ} (hj : j < 256) (hk : k < 256)
    (hx : x < 256) : natSwap j k x < 256 := by
  unfold natSwap
  split_ifs <;> omega

theorem natSwap_zero {j k : ℕ} (hj : j ≠ 0) (hk : k ≠ 0) :
    natSwap j k 0 = 0 := by
  unfold natSwap
  split_ifs <;> omega

theorem swapIdx_ge_one (seed i : ℕ) : 1 ≤ swapIdx seed i := by
  unfold swapIdx
  omega

theorem swapIdx_le_254 (seed i : ℕ) : swapIdx seed i ≤ 254 := by
  unfold swapIdx
  have := Nat.mod_lt (i * (6 + seed % 250) + seed / 250)
    (show 0 < 254 by norm_num)
  omega

/-- The swap fold preserves injectivity, the byte range, and fixing index
0 (every swap touches only positions in 1..255). -/
theorem encodeFold_spec (seed : ℕ) (l : List ℕ) :
    ∀ f : ℕ → ℕ, Function.Injective f → (∀ x, x < 256 → f x < 256) →
      f 0 = 0 →
      Function.Injective (l.foldl (encodeStep seed) f) ∧
      (∀ x, x < 256 → l.foldl (encodeStep seed) f x < 256) ∧
      l.foldl (encodeStep seed) f 0 = 0 := by
  induction l with
  | nil => exact fun f h1 h2 h3 => ⟨h1, h2, h3⟩
  | cons a l ih =>
    intro f h1 h2 h3
    have hj1 := swapIdx_ge_one seed a
    have hj2 := swapIdx_le_254 seed a
    have he : encodeStep seed f a =
        f ∘ natSwap (swapIdx seed a) (swapIdx seed a + 1) := by
      funext x
      exact tableSwap_apply _ _ _ _
    simp only [List.foldl_cons]
    apply ih
    · rw [he]
      exact h1.comp (natSwap_inj _ _)
    · intro x hx
      rw [he]
      exact h2 _ (natSwap_lt_256 (by omega) (by omega) hx)
    · rw [he]
      simp only [Function.comp_apply]
      rw [natSwap_zero (by omega) (by omega)]
      exact h3

theorem encodeTable_inj (seed : ℕ) : Function.Injective (encodeTable seed) :=
  (encodeFold_spec seed _ id Function.injective_id (fun _ h => h) rfl).1

theorem encodeTable_lt_256 (seed : ℕ) :
    ∀ x, x < 256 → encodeTable seed x < 256 :=
  (encodeFold_spec seed _ id Function.injective_id (fun _ h => h) rfl).2.1

theorem encodeTable_zero (seed : ℕ) : encodeTable seed 0 = 0 :=
  (encodeFold_spec seed _ id Function.injective_id (fun _ h => h) rfl).2.2

/-- The encode table permutes the byte range: every byte is hit. -/
theorem encodeTable_surj_on (seed : ℕ) (b : ℕ) (hb : b < 256) :
    ∃ x, x < 256 ∧ encodeTable seed x = b := by
  classical
  have himg : (Finset.range 256).image (encodeTable seed) =
      Finset.range 256 := by
    apply Finset.eq_of_subset_of_card_le
    · intro y hy
      simp only [Finset.mem_image, Finset.mem_range] at hy ⊢
      obtain ⟨x, hx, rfl⟩ := hy
      exact encodeTable_lt_256 seed x hx
    · rw [Finset.card_image_of_injective _ (encodeTable_inj seed)]
  have hbmem : b ∈ (Finset.range 256).image (encodeTable seed) := by
    rw [himg]
    simpa using hb
  simpa [Finset.mem_image, Finset.mem_range, and_comm] using hbmem

/-- The inversion fold leaves untouched every position whose index is not
written by any listed key. -/
theorem decodeFold_not_mem (seed : ℕ) :
    ∀ (l : List ℕ) (t0 : ℕ → ℕ) (x : ℕ),
      (∀ i ∈ l, encodeTable seed i ≠ x) →
      l.foldl (decodeStep seed) t0 x = t0 x := by
  intro l
  induction l with
  | nil => intro t0 x _; rfl
  | cons a l ih =>
    intro t0 x h
    simp only [List.foldl_cons]
    rw [ih _ _ fun i hi => h i (List.mem_cons_of_mem a hi)]
    exact Function.update_noteq
      (fun hx => h a (List.mem_cons_self a l) hx.symm) _ _

/-- The inversion fold writes each distinct key once, so the final value at
`encodeTable seed i` is `i` for every listed `i`. -/
theorem decodeFold_mem (seed : ℕ) :
    ∀ (l : List ℕ) (t0 : ℕ → ℕ) (i : ℕ), l.Nodup → i ∈ l →
      l.foldl (decodeStep seed) t0 (encodeTable seed i) = i := by
  intro l
  induction l with
  | nil => intro t0 i _ hi; cases hi
  | cons a l ih =>
    intro t0 i hnd hi
    simp only [List.foldl_cons]
    rcases List.mem_cons.mp hi with rfl | hmem
    · have ha : i ∉ l := (List.nodup_cons.mp hnd).1
      rw [decodeFold_not_mem seed l _ _ ?_]
      · exact Function.update_same _ _ _
      · intro j hj hEq
        exact ha (encodeTable_inj seed hEq ▸ hj)
    · exact ih _ i (List.nodup_cons.mp hnd).2 hmem

theorem decodeTable_zero (seed : ℕ) : decodeTable seed 0 = 0 := by
  unfold decodeTable
  rw [decodeFold_not_mem]
  intro i hi hEq
  have : i = 0 :=
    encodeTable_inj seed (hEq.trans (encodeTable_zero seed).symm)
  rw [List.mem_range'_1] at hi
  omega

theorem decodeTable_encodeTable (seed x : ℕ) (hx : x < 256) :
    decodeTable seed (encodeTable seed x) = x := by
  rcases Nat.eq_zero_or_pos x with rfl | hpos
  · rw [encodeTable_zero, decodeTable_zero]
  · apply decodeFold_mem
    · exact List.nodup_range' _ _
    · rw [List.mem_range'_1]
      omega

theorem encodeTable_decodeTable (seed b : ℕ) (hb : b < 256) :
    encodeTable seed (decodeTable seed b) = b := by
  obtain ⟨x, hx, rfl⟩ := encodeTable_surj_on seed b hb
  rw [decodeTable_encodeTable seed x hx]

/-! ## C5: the decode table inverts the generated permutation -/

/-- C5: for every u32 seed (the theorem holds for every natural seed, which
subsumes the u32 range), the 256-entry decode table built by
`generate_decode_table` is the inverse of the permutation produced by
starting from the identity and, for `i` from 1 to 10000, swapping positions
`j` and `j+1` with `j = 1 + (i*a + b) % 254`, `a = 6 + seed % 250`,
`b = seed / 250`: index 0 maps to 0, and on every byte the two tables cancel
in both orders — so encoding then decoding restores any payload bit-exact. -/
theorem c5_decode_table_is_inverse (seed b : ℕ) (hb : b < 256) :
    decodeTable seed (encodeTable seed b) = b ∧
    encodeTable seed (decodeTable seed b) = b ∧
    decodeTable seed 0 = 0 :=
  ⟨decodeTable_encodeTable seed b hb, encodeTable_decodeTable seed b hb,
   decodeTable_zero seed⟩

/-- C5 witness at seed 42 and byte 7. -/
theorem c5_decode_table_is_inverse_witness :
    (7 : ℕ) < 256 ∧
    (decodeTable 42 (encodeTable 42 7) = 7 ∧
     encodeTable 42 (decodeTable 42 7) = 7 ∧
     decodeTable 42 0 = 0) :=
  ⟨by norm_num, c5_decode_table_is_inverse 42 7 (by norm_num)⟩

/-! ## C4: which positions the decode loop transforms -/

theorem decodeFrom_length (t : ℕ → ℕ) (b : ℕ) :
    ∀ (l : List ℕ) (pos : ℕ), (decodeFrom t b pos l).length = l.length := by
  intro l
  induction l with
  | nil => intro pos; rfl
  | cons c r ih =>
    intro pos
    simp only [decodeFrom, List.length_cons, ih]

theorem decodeFrom_getD (t : ℕ → ℕ) (b : ℕ) :
    ∀ (l : List ℕ) (pos k : ℕ), k < l.length →
      (decodeFrom t b pos l).getD k 0 =
        if b ≤ pos + k then (t (l.getD k 0) + 256 - (pos + k) % 256) % 256
        else l.getD k 0 := by
  intro l
  induction l with
  | nil =>
    intro pos k h
    simp at h
  | cons c r ih =>
    intro pos k h
    cases k with
    | zero => simp [decodeFrom]
    | succ k =>
      have hk : k < r.length := by simpa using Nat.lt_of_succ_lt_succ h
      have e : pos + (k + 1) = (pos + 1) + k := by omega
      simp only [decodeFrom, List.getD_cons_succ, e]
      exact ih (pos + 1) k hk

/-- C4 counterexample: take seed 0 and a 21-byte buffer of zeros whose
header ends at offset 20 (`start = 20`, so position 20 is the first byte
strictly after the seed field).  The claim's formula demands
`plain[20] = decode_table[0] - 20 = 236`; the decode loop of `parse` starts
at `start + 1` and leaves the byte at position 20 (and the whole buffer)
untouched at 0. -/
theorem c4_counterexample :
    (parseDecode 0 20 (List.replicate 21 0)).getD 20 0 = 0 ∧
    (decodeTable 0 0 + 256 - 20 % 256) % 256 = 236 ∧
    (0 : ℕ) ≠ 236 := by
  refine ⟨?_, ?_, by norm_num⟩
  · have : parseDecode 0 20 (List.replicate 21 0) = List.replicate 21 0 := rfl
    rw [this]
    rfl
  · rw [decodeTable_zero]

/-- C4 (amended): the decode step of `parse` transforms exactly the bytes at
positions `≥ start + 1` — that is, it skips the first byte after the header
— replacing each by `decode_table[cipher[p]] - (p mod 256)` in wrapping u8
arithmetic, and leaves every byte at a position `≤ start` (the header, its
seed field, and the one byte following it) untouched; no byte at position
`≥ start + 1` is skipped and the length is preserved. -/
theorem c4_decode_positions_amended (seed start : ℕ) (data : List ℕ) (p : ℕ)
    (hp : p < data.length) :
    (parseDecode seed start data).length = data.length ∧
    (parseDecode seed start data).getD p 0 =
      (if start + 1 ≤ p then
         (decodeTable seed (data.getD p 0) + 256 - p % 256) % 256
       else data.getD p 0) := by
  constructor
  · exact decodeFrom_length _ _ data 0
  · have := decodeFrom_getD (decodeTable seed) (start + 1) data 0 p hp
    simpa using this

/-- C4 amended witness: buffer [9, 9, 9], header end 5, position 2 (inside
the untouched prefix). -/
theorem c4_decode_positions_amended_witness :
    (2 : ℕ) < 3 ∧
    ((parseDecode 0 5 [9, 9, 9]).length = 3 ∧
     (parseDecode 0 5 [9, 9, 9]).getD 2 0 =
       (if 5 + 1 ≤ 2 then
          (decodeTable 0 ([9, 9, 9].getD 2 0) + 256 - 2 % 256) % 256
        else [9, 9, 9].getD 2 0)) := by
  refine ⟨by norm_num, ?_⟩
  have h := c4_decode_positions_amended 0 5 [9, 9, 9] 2 (by norm_num)
  simpa using h

/-! ## Alarm lemmas (C8) -/

theorem find?_eq_head?_filter {α : Type} (p : α → Bool) (l : List α) :
    l.find? p = (l.filter p).head? := by
  induction l with
  | nil => rfl
  | cons a l ih =>
    cases hpa : p a
    · rw [List.find?_cons_of_neg _ (by simp [hpa]),
        List.filter_cons_of_neg (by simp [hpa]), ih]
    · rw [List.find?_cons_of_pos _ hpa, List.filter_cons_of_pos hpa]
      rfl

theorem alarmLookup_eq (s : List (ℤ × ℤ)) (i : ℤ) :
    alarmLookup s i =
      ((s.filter fun p => p.1 == i).head?).map fun p => p.2 := by
  unfold alarmLookup
  rw [find?_eq_head?_filter]

theorem alarmSet_filter_key (a : List (ℤ × ℤ)) (i n : ℤ) (hn : 0 < n) :
    (alarmSet a i n).filter (fun p => p.1 == i) = [(i, n)] := by
  unfold alarmSet
  rw [if_neg (by omega), List.filter_append]
  have h1 : (a.filter fun p => p.1 != i).filter (fun p => p.1 == i) = [] := by
    rw [List.filter_filter]
    apply List.filter_eq_nil_iff.mpr
    intro p _
    by_cases hpi : p.1 = i <;> simp [hpi]
  rw [h1]
  simp

theorem alarmStep_filter_key (s : List (ℤ × ℤ)) (i : ℤ) :
    (alarmStep s).1.filter (fun p => p.1 == i) =
      ((s.filter fun p => p.1 == i).map fun p => (p.1, p.2 - 1)).filter
        fun p => decide (0 < p.2) := by
  induction s with
  | nil => rfl
  | cons hd tl ih =>
    unfold alarmStep at ih ⊢
    simp only [List.map_cons, List.filter_cons]
    by_cases h1 : (0 : ℤ) < hd.2 - 1 <;> by_cases h2 : hd.1 = i <;>
      simp [h1, h2, List.filter_cons, ih]

theorem alarmStep_fired_key (s : List (ℤ × ℤ)) (i : ℤ) :
    i ∈ (alarmStep s).2 ↔
      ∃ p ∈ s.filter (fun p => p.1 == i), p.2 - 1 ≤ 0 := by
  induction s with
  | nil => simp [alarmStep]
  | cons hd tl ih =>
    unfold alarmStep at ih ⊢
    simp only [List.map_cons, List.filter_cons]
    by_cases h1 : (0 : ℤ) < hd.2 - 1 <;> by_cases h2 : hd.1 = i <;>
      simp [h1, h2, ih, List.filter_cons] <;> omega

theorem alarmIter_filter_key (a : List (ℤ × ℤ)) (i n : ℤ) (hn : 0 < n) :
    ∀ k : ℕ, (alarmIter (alarmSet a i n) k).filter (fun p => p.1 == i) =
      if (k : ℤ) < n then [(i, n - k)] else [] := by
  intro k
  induction k with
  | zero =>
    rw [if_pos (by exact_mod_cast hn)]
    simpa using alarmSet_filter_key a i n hn
  | succ k ih =>
    show (alarmStep (alarmIter (alarmSet a i n) k)).1.filter _ = _
    rw [alarmStep_filter_key, ih]
    by_cases hk : (k : ℤ) < n
    · rw [if_pos hk]
      by_cases hk1 : ((k : ℤ) + 1) < n
      · rw [if_pos (by push_cast; omega)]
        have hpos : (0 : ℤ) < n - k - 1 := by omega
        simp only [List.map_cons, List.map_nil, List.filter_cons]
        rw [if_pos (by simpa using hpos)]
        simp only [List.filter_nil]
        congr 1
        simp only [Prod.mk.injEq, true_and]
        push_cast
        omega
      · rw [if_neg (by push_cast; omega)]
        have hneg : ¬((0 : ℤ) < n - k - 1) := by omega
        simp only [List.map_cons, List.map_nil, List.filter_cons]
        rw [if_neg (by simpa using hneg)]
        simp
    · rw [if_neg hk, if_neg (by push_cast; omega)]
      rfl

/-! ## C8: alarm monotonicity -/

/-- C8: setting alarm `i` to `n > 0` and then running per-instance steps
with no intervening `set_alarm` fires `Alarm(i)` exactly once — on the k-th
step precisely when `k = n` — and after that step (indeed from step `n` on)
the alarm entry is removed, so lookups and further steps see nothing for
index `i`: the lookup after `k` steps is `n - k` while `k < n` and nothing
from `k = n` on. -/
theorem c8_alarm_monotonic (a : List (ℤ × ℤ)) (i n : ℤ) (k : ℕ)
    (hn : 0 < n) (hk : 1 ≤ k) :
    (i ∈ firedOnStep (alarmSet a i n) k ↔ (k : ℤ) = n) ∧
    alarmLookup (alarmIter (alarmSet a i n) k) i =
      (if (k : ℤ) < n then some (n - k) else none) := by
  constructor
  · obtain ⟨k', rfl⟩ : ∃ k', k = k' + 1 := ⟨k - 1, by omega⟩
    unfold firedOnStep
    have hsub : (k' + 1) - 1 = k' := by omega
    rw [hsub, alarmStep_fired_key, alarmIter_filter_key a i n hn k']
    by_cases hk' : (k' : ℤ) < n
    · rw [if_pos hk']
      constructor
      · rintro ⟨p, hp, hple⟩
        simp only [List.mem_singleton] at hp
        subst hp
        push_cast
        omega
      · intro hEq
        refine ⟨(i, n - k'), by simp, ?_⟩
        push_cast at hEq ⊢
        omega
    · rw [if_neg hk']
      simp only [List.not_mem_nil, false_and, exists_false, false_iff]
      push_cast
      omega
  · rw [alarmLookup_eq, alarmIter_filter_key a i n hn k]
    by_cases hlt : (k : ℤ) < n
    · simp [hlt]
    · simp [hlt]

/-- C8 witness: empty table, alarm 0 set to 2, checked at step 2. -/
theorem c8_alarm_monotonic_witness :
    (0 : ℤ) < 2 ∧ (1 : ℕ) ≤ 2 ∧
    ((0 ∈ firedOnStep (alarmSet [] 0 2) 2 ↔ ((2 : ℕ) : ℤ) = 2) ∧
     alarmLookup (alarmIter (alarmSet [] 0 2) 2) 0 =
       (if ((2 : ℕ) : ℤ) < 2 then some (2 - (2 : ℕ)) else none)) :=
  ⟨by norm_num, by norm_num,
   c8_alarm_monotonic [] 0 2 2 (by norm_num) (by norm_num)⟩

end Iji
